import Mathlib

/-!
# Verification of `relecov_tools/read_bioinfo_metadata.py`

A shallow embedding of the `BioinfoMetadata` merge pipeline.  Records are
Python dictionaries from field name to string value, embedded as association
lists whose update preserves the position of an existing key and appends a new
one (Python `dict` insertion-order semantics).  The utility readers from
`relecov_tools.utils` are external collaborators (per the design document they
are black-box services); their per-path results are supplied by an `Env`
structure.  Fallible Python code (uncaught exceptions and `sys.exit(1)` calls)
is embedded with `Except`.
-/

set_option autoImplicit false

namespace Relecov

/-- One sample's aggregated metadata: a Python dict from field name to string
value, embedded as an association list. -/
abbrev Record : Type := List (String × String)

/-- The record set threaded through the pipeline (`j_data`). -/
abbrev RecordSet : Type := List Record

/-- An artifact index: sample identifier to row (itself a dict), the shape
returned by `read_csv_file_return_dict`. -/
abbrev ArtifactIndex : Type := List (String × Record)

/-- Python `d[k]` as a lookup: first entry with the given key. -/
def lookupKV {α : Type} : List (String × α) → String → Option α
  | [], _ => none
  | (k, v) :: r, f => if k = f then some v else lookupKV r f

/-- `row[f]` on a record. -/
def getField (r : Record) (f : String) : Option String :=
  lookupKV r f

/-- Python `row[k] = v` on a dict: overwrite in place if the key exists,
append otherwise. -/
def setField : Record → String → String → Record
  | [], k, v => [(k, v)]
  | (k2, v2) :: r, k, v =>
    if k2 = k then (k, v) :: r else (k2, v2) :: setField r k v

/-- The ways a run of the pipeline stops before producing output:
`fatalKey k ctx` is the `sys.exit(1)` after logging that key `k` was not
found while reading context `ctx`; `invalidJson` and `yamlError` are the
`sys.exit(1)` calls on unparsable inputs; the `uncaught` constructors embed
unhandled Python exceptions (`KeyError`, `IndexError`, `ValueError`). -/
inductive PipelineError : Type where
  | fatalKey (key : String) (context : String)
  | invalidJson
  | yamlError
  | uncaughtKey (key : String)
  | uncaughtIndexError
  | uncaughtValueError (text : String)
  deriving DecidableEq, Repr

/-- The sequence record abstraction returned by
`read_fasta_return_SeqIO_instance`: `Modelled from the spec:` the reader is an
external collaborator; the stage observes only `len(record)` and
`record.description`. -/
structure Fasta : Type where
  length : Nat
  description : String
  deriving DecidableEq, Repr

/-- The per-stage field mappings and fixed values obtained from the
`bioinfo_analysis` topic of the configuration (`get_topic_data`).  Python
dicts, embedded as association lists. -/
structure Config : Type where
  fixed_values : List (String × String)
  mapping_stats : List (String × String)
  mapping_version : List (String × List (String × String))
  mapping_variant_metrics : List (String × String)
  mapping_pangolin : List (String × String)
  mapping_consensus : List (String × String)

/-- The fixed inputs of one run: paths, configuration, and the results of the
black-box readers of `relecov_tools.utils` at each path they may be asked to
read.  `Modelled from the spec:` the readers themselves (CSV/fasta/yaml/json
parsing, globbing, MD5) are external collaborators outside the core, so the
environment carries their outputs: `none` models the exception the reader
raises (`ValueError`, `FileNotFoundError`, `YAMLError`). -/
structure Env : Type where
  jsonFile : String
  inputFolder : String
  outputFolder : String
  config : Config
  /-- result of `read_json_file(self.json_file)`; `none` is `ValueError`. -/
  readJson : Option RecordSet
  /-- result of `read_csv_file_return_dict(req_files["mapping_stats"], "\t", 4)`. -/
  mappingStatsIndex : ArtifactIndex
  /-- result of `read_csv_file_return_dict(req_files["variants_metrics"], ",")`. -/
  variantMetricsIndex : ArtifactIndex
  /-- result of `read_yml_file(req_files["versions"])`; `none` is `YAMLError`. -/
  versionsYaml : Option (List (String × List (String × String)))
  /-- per-path result of `read_csv_file_return_dict(f_path, ",")`;
  `none` is `FileNotFoundError`. -/
  readCsvComma : String → Option ArtifactIndex
  /-- per-path result of `read_fasta_return_SeqIO_instance(f_path)`;
  `none` is `FileNotFoundError`. -/
  readFasta : String → Option Fasta
  /-- per-path result of `calculate_md5(f_path)`. -/
  md5 : String → String
  /-- result of `get_files_match_condition(os.path.join(input_folder,
  "*long_table.csv"))`. -/
  longTableMatches : List String

/-- `os.path.join a b` for the shapes the program builds. -/
def osPathJoin (a b : String) : String :=
  if a.data.head? = some '/' ∧ b.data.head? = some '/' then b
  else if b.data.head? = some '/' then b
  else if a = "" then b
  else if a.data.getLast? = some '/' then a ++ b
  else a ++ "/" ++ b

/-- `os.path.basename p`: everything after the last slash. -/
def pyBasename (s : String) : String :=
  String.mk (s.data.foldl (fun acc c => if c = '/' then [] else acc ++ [c]) [])

/-- `os.path.splitext p` first component: drop the extension after the last
dot, unless every character before that dot is itself a dot. -/
def splitextRoot (s : String) : String :=
  match s.data.enum.foldl (fun acc p => if p.2 = '.' then some p.1 else acc) none with
  | none => s
  | some i => if (s.data.take i).all (fun c => c = '.') then s else String.mk (s.data.take i)

/-- Python `int(s)` on strings: strip whitespace, optional sign, decimal
digits; `none` is `ValueError`. -/
def digitsToNat : List Char → Option Nat
  | [] => none
  | cs =>
    if cs.all Char.isDigit then
      some (cs.foldl (fun a c => a * 10 + (c.toNat - 48)) 0)
    else none

/-- Strip leading and trailing whitespace, as Python `str.strip()` does
before `int` parses. -/
def pyStrip (cs : List Char) : List Char :=
  ((cs.dropWhile Char.isWhitespace).reverse.dropWhile Char.isWhitespace).reverse

/-- Python `int(s)` for a decimal string; `none` embeds `ValueError`. -/
def pyInt (s : String) : Option Int :=
  match pyStrip s.data with
  | '+' :: cs => (digitsToNat cs).map Int.ofNat
  | '-' :: cs => (digitsToNat cs).map (fun n => -(Int.ofNat n : Int))
  | cs => (digitsToNat cs).map Int.ofNat

/-- Sample identity normalization (lines 107-110 and 139-142): if the logical
identifier contains a hyphen, replace every hyphen by an underscore, else use
it unchanged. -/
def normalizeSampleId (s : String) : String :=
  if s.data.contains '-' then
    String.mk (s.data.map (fun c => if c = '-' then '_' else c))
  else s

/-- Exception-aborting left fold: the Python `for` loop whose body may raise. -/
def foldME {α β ε : Type} (f : β → α → Except ε β) : β → List α → Except ε β
  | b, [] => .ok b
  | b, a :: l =>
    match f b a with
    | .error e => .error e
    | .ok b2 => foldME f b2 l

/-- Exception-aborting map over the record set: the Python `for row in j_data`
loop whose body may raise; on success the mutated rows in order. -/
def mapME {α β ε : Type} (f : α → Except ε β) : List α → Except ε (List β)
  | [] => .ok []
  | a :: l =>
    match f a with
    | .error e => .error e
    | .ok b =>
      match mapME f l with
      | .error e => .error e
      | .ok bs => .ok (b :: bs)

/-- Write one value per configured (target field, source) pair into a record:
`for field, value in mapping.items(): row[field] = g (field, value)`. -/
def writeAll (g : String × String → String) (mapping : List (String × String)) (r : Record) : Record :=
  mapping.foldl (fun r2 p => setField r2 p.1 (g p)) r

/-- Project configured fields into a record through a fallible resolver:
`for field, value in mapping.items(): row[field] = resolve row value`,
aborting at the first raised exception. -/
def projectRow (resolve : Record → String → Except PipelineError String)
    (mapping : List (String × String)) (r : Record) : Except PipelineError Record :=
  foldME (fun r2 p =>
    match resolve r2 p.2 with
    | .error e => .error e
    | .ok v => .ok (setField r2 p.1 v)) r mapping

/-- The lookup `map_data[row["sequencing_sample_id"]][value]` of the
mapping-stats and variant-metrics stages; any `KeyError` is caught and turned
into the fatal exit that logs `Field <key> not found in mapping stats`
(both stages use that same message, lines 96-98 and 199-201). -/
def statResolve (index : ArtifactIndex) (r : Record) (col : String) : Except PipelineError String :=
  match getField r "sequencing_sample_id" with
  | none => .error (.fatalKey "sequencing_sample_id" "mapping stats")
  | some sid =>
    match lookupKV index sid with
    | none => .error (.fatalKey sid "mapping stats")
    | some samp =>
      match lookupKV samp col with
      | none => .error (.fatalKey col "mapping stats")
      | some v => .ok v

/-- Enrich every record from a whole-file artifact index (the shared body of
`include_data_from_mapping_stats` and `include_variant_metrics`). -/
def enrichSet (index : ArtifactIndex) (mapping : List (String × String))
    (j : RecordSet) : Except PipelineError RecordSet :=
  mapME (projectRow (statResolve index) mapping) j

/-- `add_fixed_values` (lines 66-72). -/
def addFixedValues (fixedValues : List (String × String)) (j : RecordSet) : RecordSet :=
  j.map (writeAll (fun p => p.2) fixedValues)

/-- `include_data_from_mapping_stats` (lines 74-99). -/
def includeDataFromMappingStats (env : Env) (j : RecordSet) : Except PipelineError RecordSet :=
  enrichSet env.mappingStatsIndex env.config.mapping_stats j

/-- `include_variant_metrics` (lines 184-202). -/
def includeVariantMetrics (env : Env) (j : RecordSet) : Except PipelineError RecordSet :=
  enrichSet env.variantMetricsIndex env.config.mapping_variant_metrics j

/-- The double lookup `versions[key][value]` (line 222), both unguarded:
a missing key is an uncaught `KeyError`. -/
def versionResolve (versions : List (String × List (String × String)))
    (kv : String × String) : Except PipelineError String :=
  match lookupKV versions kv.1 with
  | none => .error (.uncaughtKey kv.1)
  | some sub =>
    match lookupKV sub kv.2 with
    | none => .error (.uncaughtKey kv.2)
    | some v => .ok v

/-- The per-record body of `include_software_versions` (lines 217-222):
`row[field] = versions[key][value]`. -/
def versionRow (versions : List (String × List (String × String)))
    (mapping : List (String × List (String × String))) (r : Record) :
    Except PipelineError Record :=
  foldME (fun r2 fv =>
    foldME (fun r3 kv =>
      match versionResolve versions kv with
      | .error e => .error e
      | .ok v => .ok (setField r3 fv.1 v)) r2 fv.2) r mapping

/-- `include_software_versions` (lines 204-223): a `YAMLError` from the
reader is a fatal exit, then every record gets every configured version. -/
def includeSoftwareVersions (env : Env) (j : RecordSet) : Except PipelineError RecordSet :=
  match env.versionsYaml with
  | none => .error .yamlError
  | some versions => mapME (versionRow versions env.config.mapping_version) j

/-- The pangolin file name of a record (line 111):
`sample_name + ".pangolin." + row["analysis_date"] + ".csv"`. -/
def pangolinFileName (sid date : String) : String :=
  normalizeSampleId sid ++ ".pangolin." ++ date ++ ".csv"

/-- The resolver of the pangolin success path: the unguarded column lookup
`f_data[pang_key][value]` (line 126); a missing column is an uncaught
`KeyError`. -/
def pangResolve (samp : Record) (_r : Record) (col : String) : Except PipelineError String :=
  match lookupKV samp col with
  | none => .error (.uncaughtKey col)
  | some v => .ok v

/-- The per-record body of `include_pangolin_data` (lines 106-126): a
`FileNotFoundError` from the reader empties every configured target field and
moves on; on a successful read the first row (`pang_key = list(f_data.keys())[0]`,
an uncaught `IndexError` when the parsed file is empty) is indexed and the
configured source columns are read unguarded. -/
def pangolinRow (env : Env) (r : Record) : Except PipelineError Record :=
  match getField r "sequencing_sample_id" with
  | none => .error (.uncaughtKey "sequencing_sample_id")
  | some sid =>
    match getField r "analysis_date" with
    | none => .error (.uncaughtKey "analysis_date")
    | some date =>
      match env.readCsvComma (osPathJoin env.inputFolder (pangolinFileName sid date)) with
      | none => .ok (writeAll (fun _ => "") env.config.mapping_pangolin r)
      | some fData =>
        match fData with
        | [] => .error .uncaughtIndexError
        | (_, samp) :: _ =>
          projectRow (pangResolve samp) env.config.mapping_pangolin r

/-- `include_pangolin_data` (lines 101-128). -/
def includePangolinData (env : Env) (j : RecordSet) : Except PipelineError RecordSet :=
  mapME (pangolinRow env) j

/-- The five derived fields written under hardcoded names on the consensus
success path (lines 155-159). -/
def consensusStamp (env : Env) (fasta : Fasta) (fName fPath : String) (r : Record) : Record :=
  setField
    (setField
      (setField
        (setField
          (setField r "consensus_genome_length" (toString fasta.length))
          "consensus_sequence_name" fasta.description)
        "consensus_sequence_filepath" env.inputFolder)
      "consensus_sequence_filename" fName)
    "consensus_sequence_md5" (env.md5 fPath)

/-- The consensus success path (lines 155-166): stamp the five derived fields,
then `number_of_base_pairs_sequenced = str(int(row["read_length"]) * len(record))`,
doubled when `row["sequencing_sample_id"]` is non-empty.  `int(...)` on a
non-numeric string is an uncaught `ValueError`. -/
def consensusSuccess (env : Env) (fasta : Fasta) (fName fPath : String) (r : Record) :
    Except PipelineError Record :=
  match getField (consensusStamp env fasta fName fPath r) "read_length" with
  | none => .error (.uncaughtKey "read_length")
  | some rl =>
    match pyInt rl with
    | none => .error (.uncaughtValueError rl)
    | some n =>
      match getField (consensusStamp env fasta fName fPath r) "sequencing_sample_id" with
      | none => .error (.uncaughtKey "sequencing_sample_id")
      | some sid2 =>
        if sid2 ≠ "" then
          .ok (setField (consensusStamp env fasta fName fPath r)
            "number_of_base_pairs_sequenced" (toString (n * (fasta.length : Int) * 2)))
        else
          .ok (setField (consensusStamp env fasta fName fPath r)
            "number_of_base_pairs_sequenced" (toString (n * (fasta.length : Int))))

/-- The per-record body of `include_consensus_data` (lines 138-166): a
`FileNotFoundError` empties the configured fields and moves on; a successful
read takes the success path. -/
def consensusRow (env : Env) (r : Record) : Except PipelineError Record :=
  match getField r "sequencing_sample_id" with
  | none => .error (.uncaughtKey "sequencing_sample_id")
  | some sid =>
    match env.readFasta (osPathJoin env.inputFolder (normalizeSampleId sid ++ ".consensus.fa")) with
    | none => .ok (writeAll (fun _ => "") env.config.mapping_consensus r)
    | some fasta =>
      consensusSuccess env fasta (normalizeSampleId sid ++ ".consensus.fa")
        (osPathJoin env.inputFolder (normalizeSampleId sid ++ ".consensus.fa")) r

/-- `include_consensus_data` (lines 130-168). -/
def includeConsensusData (env : Env) (j : RecordSet) : Except PipelineError RecordSet :=
  mapME (consensusRow env) j

/-- The single resolved long-table value (lines 174-179): empty when the glob
found nothing, else its first match. -/
def longTableValue (env : Env) : String :=
  match env.longTableMatches with
  | [] => ""
  | p :: _ => p

/-- `include_long_table_path` (lines 170-182): total, the same value written
into every record. -/
def includeLongTablePath (env : Env) (j : RecordSet) : RecordSet :=
  j.map (fun r => setField r "long_table_path" (longTableValue env))

/-- `collect_info_from_lab_json` (lines 225-245): an invalid json file is a
fatal exit; on success the raw parsed record set is returned (the field
projection block is commented out in the source). -/
def collectInfoFromLabJson (env : Env) : Except PipelineError RecordSet :=
  match env.readJson with
  | none => .error .invalidJson
  | some j => .ok j

/-- How many times the run stops and waits for interactive debugger input:
line 235 runs `import pdb; pdb.set_trace()` unconditionally once the json file
has parsed, before any enrichment stage. -/
def runPauses (env : Env) : Nat :=
  match env.readJson with
  | none => 0
  | some _ => 1

/-- The observable outcome of a successful run: the final record set, the
path of the single output artifact, and the directory passed to
`os.makedirs(..., exist_ok=True)`. -/
structure RunOutput : Type where
  records : RecordSet
  outPath : String
  madeDir : String
  deriving DecidableEq, Repr

/-- The serialized file name (lines 268-270):
`"bioinfo_" + os.path.splitext(os.path.basename(json_file))[0] + ".json"`. -/
def outputFileName (jsonFile : String) : String :=
  "bioinfo_" ++ splitextRoot (pyBasename jsonFile) ++ ".json"

/-- `create_bioinfo_file` (lines 247-276): the straight-line driver.  A fatal
stage aborts the run with no output written; on success the output json is
written once, to `output_folder/bioinfo_<basename>.json`, after creating the
output folder. -/
def createBioinfoFile (env : Env) : Except PipelineError RunOutput :=
  match collectInfoFromLabJson env with
  | .error e => .error e
  | .ok j0 =>
    match includeDataFromMappingStats env (addFixedValues env.config.fixed_values j0) with
    | .error e => .error e
    | .ok j2 =>
      match includeSoftwareVersions env j2 with
      | .error e => .error e
      | .ok j3 =>
        match includeVariantMetrics env j3 with
        | .error e => .error e
        | .ok j4 =>
          match includePangolinData env j4 with
          | .error e => .error e
          | .ok j5 =>
            match includeConsensusData env j5 with
            | .error e => .error e
            | .ok j6 =>
              .ok { records := includeLongTablePath env j6
                    outPath := osPathJoin env.outputFolder (outputFileName env.jsonFile)
                    madeDir := env.outputFolder }

/-- Whether an `Except` computation succeeded. -/
def exceptIsOk {ε α : Type} : Except ε α → Bool
  | .ok _ => true
  | .error _ => false

/-- Whether an artifact index has a given source column for a given sample. -/
def idxHas (index : ArtifactIndex) (sid col : String) : Prop :=
  ∃ row v, lookupKV index sid = some row ∧ lookupKV row col = some v

/-! ## Dictionary lemmas -/

theorem getField_setField_same : ∀ (r : Record) (k v : String),
    getField (setField r k v) k = some v
  | [], k, v => by simp [setField, getField, lookupKV]
  | (k2, v2) :: r, k, v => by
    by_cases h : k2 = k
    · simp [setField, h, getField, lookupKV]
    · simpa [setField, h, getField, lookupKV] using getField_setField_same r k v

theorem getField_setField_ne : ∀ (r : Record) (k v f : String), f ≠ k →
    getField (setField r k v) f = getField r f
  | [], k, v, f, h => by simp [setField, getField, lookupKV, h, Ne.symm h]
  | (k2, v2) :: r, k, v, f, h => by
    by_cases h2 : k2 = k
    · subst h2
      simp [setField, getField, lookupKV, h, Ne.symm h]
    · by_cases h3 : k2 = f
      · subst h3
        simp [setField, getField, lookupKV, h2, h]
      · simpa [setField, getField, lookupKV, h2, h3] using
          getField_setField_ne r k v f h

theorem setField_superset (r : Record) (k v f w : String)
    (h : getField r f = some w) : ∃ u, getField (setField r k v) f = some u := by
  by_cases hfk : f = k
  · exact ⟨v, hfk ▸ getField_setField_same r k v⟩
  · exact ⟨w, (getField_setField_ne r k v f hfk).trans h⟩

/-! ## `writeAll` lemmas -/

theorem writeAll_cons (g : String × String → String) (p : String × String)
    (m : List (String × String)) (r : Record) :
    writeAll g (p :: m) r = writeAll g m (setField r p.1 (g p)) := rfl

theorem projectRow_nil (resolve : Record → String → Except PipelineError String)
    (r : Record) : projectRow resolve [] r = .ok r := rfl

theorem getField_writeAll_notin : ∀ (m : List (String × String))
    (g : String × String → String) (r : Record) (f : String),
    f ∉ m.map Prod.fst → getField (writeAll g m r) f = getField r f
  | [], _, _, _, _ => rfl
  | p :: m, g, r, f, h => by
    simp only [List.map_cons, List.mem_cons, not_or] at h
    rw [writeAll_cons, getField_writeAll_notin m g _ f h.2,
      getField_setField_ne _ _ _ _ h.1]

theorem getField_writeAll_mem : ∀ (m : List (String × String))
    (g : String × String → String) (r : Record) (f : String),
    f ∈ m.map Prod.fst → ∃ w, getField (writeAll g m r) f = some w
  | [], _, _, _, h => by simp at h
  | p :: m, g, r, f, h => by
    by_cases hm : f ∈ m.map Prod.fst
    · exact getField_writeAll_mem m g _ f hm
    · simp only [List.map_cons, List.mem_cons] at h
      rcases h with h | h
      · subst h
        rw [writeAll_cons, getField_writeAll_notin m g _ _ hm,
          getField_setField_same]
        exact ⟨g p, rfl⟩
      · exact absurd h hm

theorem getField_writeAll_const : ∀ (m : List (String × String)) (c : String)
    (r : Record) (f : String), f ∈ m.map Prod.fst →
    getField (writeAll (fun _ => c) m r) f = some c
  | [], _, _, _, h => by simp at h
  | p :: m, c, r, f, h => by
    by_cases hm : f ∈ m.map Prod.fst
    · exact getField_writeAll_const m c _ f hm
    · simp only [List.map_cons, List.mem_cons] at h
      rcases h with h | h
      · subst h
        rw [writeAll_cons, getField_writeAll_notin m _ _ _ hm]
        exact getField_setField_same _ _ _
      · exact absurd h hm

theorem writeAll_superset (m : List (String × String))
    (g : String × String → String) (r : Record) (f w : String)
    (h : getField r f = some w) : ∃ u, getField (writeAll g m r) f = some u := by
  by_cases hm : f ∈ m.map Prod.fst
  · exact getField_writeAll_mem m g r f hm
  · exact ⟨w, (getField_writeAll_notin m g r f hm).trans h⟩

/-! ## `projectRow` lemmas -/

theorem projectRow_cons (resolve : Record → String → Except PipelineError String)
    (p : String × String) (m : List (String × String)) (r : Record) :
    projectRow resolve (p :: m) r =
      match resolve r p.2 with
      | .error e => .error e
      | .ok v => projectRow resolve m (setField r p.1 v) := by
  cases hres : resolve r p.2 <;> simp [projectRow, foldME, hres]

theorem projectRow_ok_notin : ∀ (m : List (String × String))
    (resolve : Record → String → Except PipelineError String) (r out : Record)
    (f : String), projectRow resolve m r = .ok out → f ∉ m.map Prod.fst →
    getField out f = getField r f
  | [], _, r, out, f, h, _ => by
    simp only [projectRow, foldME] at h
    cases h
    rfl
  | p :: m, resolve, r, out, f, h, hf => by
    simp only [List.map_cons, List.mem_cons, not_or] at hf
    rw [projectRow_cons] at h
    cases hres : resolve r p.2 with
    | error e => rw [hres] at h; cases h
    | ok v =>
      rw [hres] at h
      rw [projectRow_ok_notin m resolve _ out f h hf.2,
        getField_setField_ne _ _ _ _ hf.1]

theorem projectRow_superset : ∀ (m : List (String × String))
    (resolve : Record → String → Except PipelineError String) (r out : Record)
    (f w : String), projectRow resolve m r = .ok out → getField r f = some w →
    ∃ u, getField out f = some u
  | [], _, r, out, f, w, h, hw => by
    simp only [projectRow, foldME] at h
    cases h
    exact ⟨w, hw⟩
  | p :: m, resolve, r, out, f, w, h, hw => by
    rw [projectRow_cons] at h
    cases hres : resolve r p.2 with
    | error e => rw [hres] at h; cases h
    | ok v =>
      rw [hres] at h
      obtain ⟨u, hu⟩ := setField_superset r p.1 v f w hw
      exact projectRow_superset m resolve _ out f u h hu

theorem projectRow_ok_of_resolve : ∀ (m : List (String × String))
    (resolve : Record → String → Except PipelineError String) (r : Record),
    (∀ r2 p, p ∈ m → ∃ v, resolve r2 p.2 = .ok v) →
    ∃ out, projectRow resolve m r = .ok out
  | [], _, r, _ => ⟨r, rfl⟩
  | p :: m, resolve, r, h => by
    obtain ⟨v, hv⟩ := h r p (List.mem_cons_self p m)
    obtain ⟨out, hout⟩ := projectRow_ok_of_resolve m resolve
      (setField r p.1 v) (fun r2 q hq => h r2 q (List.mem_cons_of_mem p hq))
    exact ⟨out, by rw [projectRow_cons, hv]; exact hout⟩

/-! ## `mapME` lemmas -/

theorem projectRow_cons_error (resolve : Record → String → Except PipelineError String)
    (p : String × String) (m : List (String × String)) (r : Record)
    (e : PipelineError) (hres : resolve r p.2 = .error e) :
    projectRow resolve (p :: m) r = .error e := by
  simp [projectRow, foldME, hres]

theorem projectRow_cons_ok (resolve : Record → String → Except PipelineError String)
    (p : String × String) (m : List (String × String)) (r : Record)
    (v : String) (hres : resolve r p.2 = .ok v) :
    projectRow resolve (p :: m) r = projectRow resolve m (setField r p.1 v) := by
  simp [projectRow, foldME, hres]

theorem mapME_cons_error {α β ε : Type} (f : α → Except ε β) (a : α) (l : List α)
    (e : ε) (hf : f a = .error e) : mapME f (a :: l) = .error e := by
  simp [mapME, hf]

theorem mapME_cons_ok_ok {α β ε : Type} (f : α → Except ε β) (a : α) (l : List α)
    (b : β) (bs : List β) (hf : f a = .ok b) (hl : mapME f l = .ok bs) :
    mapME f (a :: l) = .ok (b :: bs) := by
  simp [mapME, hf, hl]

theorem mapME_cons_ok_error {α β ε : Type} (f : α → Except ε β) (a : α) (l : List α)
    (b : β) (e : ε) (hf : f a = .ok b) (hl : mapME f l = .error e) :
    mapME f (a :: l) = .error e := by
  simp [mapME, hf, hl]

theorem mapME_ok_length {α β ε : Type} (f : α → Except ε β) :
    ∀ (l : List α) (out : List β), mapME f l = .ok out → out.length = l.length
  | [], out, h => by
    simp only [mapME] at h
    cases h
    rfl
  | a :: l, out, h => by
    simp only [mapME] at h
    cases hf : f a with
    | error e => rw [hf] at h; cases h
    | ok b =>
      rw [hf] at h
      cases hm : mapME f l with
      | error e => rw [hm] at h; cases h
      | ok bs =>
        rw [hm] at h
        cases h
        simp [mapME_ok_length f l bs hm]

theorem mapME_ok_get {α β ε : Type} (f : α → Except ε β) :
    ∀ (l : List α) (out : List β), mapME f l = .ok out →
    ∀ (i : Nat) (h1 : i < l.length) (h2 : i < out.length),
      f (l.get ⟨i, h1⟩) = .ok (out.get ⟨i, h2⟩)
  | [], _, _, i, h1, _ => absurd h1 (by simp)
  | a :: l, out, h, i, h1, h2 => by
    simp only [mapME] at h
    cases hf : f a with
    | error e => rw [hf] at h; cases h
    | ok b =>
      rw [hf] at h
      cases hm : mapME f l with
      | error e => rw [hm] at h; cases h
      | ok bs =>
        rw [hm] at h
        cases h
        cases i with
        | zero => simpa using hf
        | succ i =>
          exact mapME_ok_get f l bs hm i (Nat.lt_of_succ_lt_succ h1)
            (Nat.lt_of_succ_lt_succ h2)

theorem mapME_ok_of_all {α β ε : Type} (f : α → Except ε β) :
    ∀ (l : List α), (∀ a, a ∈ l → ∃ b, f a = .ok b) →
    ∃ out, mapME f l = .ok out
  | [], _ => ⟨[], rfl⟩
  | a :: l, h => by
    obtain ⟨b, hb⟩ := h a (List.mem_cons_self a l)
    obtain ⟨bs, hbs⟩ := mapME_ok_of_all f l
      (fun x hx => h x (List.mem_cons_of_mem a hx))
    exact ⟨b :: bs, by simp only [mapME, hb, hbs]⟩

theorem mapME_error_shape {α β ε : Type} (f : α → Except ε β) (P : ε → Prop) :
    ∀ (l : List α),
    (∀ a, a ∈ l → (∃ b, f a = .ok b) ∨ (∃ e, f a = .error e ∧ P e)) →
    (∃ a, a ∈ l ∧ ∀ b, f a ≠ .ok b) →
    ∃ e, mapME f l = .error e ∧ P e
  | [], _, hex => by
    obtain ⟨a, ha, _⟩ := hex
    exact absurd ha (by simp)
  | a :: l, hall, hex => by
    cases hf : f a with
    | error e =>
      rcases hall a (List.mem_cons_self a l) with ⟨b, hb⟩ | ⟨e2, he2, hp⟩
      · rw [hf] at hb; cases hb
      · rw [hf] at he2
        injection he2 with he3
        subst he3
        exact ⟨e, by simp only [mapME, hf], hp⟩
    | ok b =>
      have hex2 : ∃ x, x ∈ l ∧ ∀ c, f x ≠ .ok c := by
        obtain ⟨x, hx, hxf⟩ := hex
        rcases List.mem_cons.mp hx with rfl | hx2
        · exact absurd hf (hxf b)
        · exact ⟨x, hx2, hxf⟩
      obtain ⟨e, he, hp⟩ := mapME_error_shape f P l
        (fun x hx => hall x (List.mem_cons_of_mem a hx)) hex2
      exact ⟨e, by simp only [mapME, hf, he], hp⟩

/-! ## Mapping-stats / variant-metrics row lemmas -/

theorem statResolve_noSample (index : ArtifactIndex) (r : Record) (col sid : String)
    (hsid : getField r "sequencing_sample_id" = some sid)
    (hidx : lookupKV index sid = none) :
    statResolve index r col = .error (.fatalKey sid "mapping stats") := by
  simp [statResolve, hsid, hidx]

theorem statResolve_noCol (index : ArtifactIndex) (r : Record) (col sid : String)
    (samp : Record) (hsid : getField r "sequencing_sample_id" = some sid)
    (hidx : lookupKV index sid = some samp) (hcol : lookupKV samp col = none) :
    statResolve index r col = .error (.fatalKey col "mapping stats") := by
  simp [statResolve, hsid, hidx, hcol]

theorem statResolve_ok (index : ArtifactIndex) (r : Record) (col sid : String)
    (samp : Record) (v : String) (hsid : getField r "sequencing_sample_id" = some sid)
    (hidx : lookupKV index sid = some samp) (hcol : lookupKV samp col = some v) :
    statResolve index r col = .ok v := by
  simp [statResolve, hsid, hidx, hcol]

theorem statRow_ok_iff (index : ArtifactIndex) :
    ∀ (m : List (String × String)) (r : Record) (sid : String),
    getField r "sequencing_sample_id" = some sid →
    "sequencing_sample_id" ∉ m.map Prod.fst →
    ((∃ out, projectRow (statResolve index) m r = .ok out) ↔
      ∀ p ∈ m, idxHas index sid p.2)
  | [], r, sid, _, _ => by
    rw [iff_true_right (by simp)]
    exact ⟨r, projectRow_nil _ r⟩
  | p :: m, r, sid, hsid, hni => by
    simp only [List.map_cons, List.mem_cons, not_or] at hni
    cases hidx : lookupKV index sid with
    | none =>
      rw [projectRow_cons_error _ p m r _ (statResolve_noSample index r p.2 sid hsid hidx)]
      constructor
      · rintro ⟨out, hout⟩
        exact Except.noConfusion hout
      · intro hall
        obtain ⟨row, v, hrow, _⟩ := hall p (List.mem_cons_self p m)
        rw [hidx] at hrow
        exact Option.noConfusion hrow
    | some samp =>
      cases hcol : lookupKV samp p.2 with
      | none =>
        rw [projectRow_cons_error _ p m r _
          (statResolve_noCol index r p.2 sid samp hsid hidx hcol)]
        constructor
        · rintro ⟨out, hout⟩
          exact Except.noConfusion hout
        · intro hall
          obtain ⟨row, v, hrow, hv⟩ := hall p (List.mem_cons_self p m)
          rw [hidx] at hrow
          injection hrow with hrow2
          subst hrow2
          rw [hcol] at hv
          exact Option.noConfusion hv
      | some v =>
        rw [projectRow_cons_ok _ p m r v
          (statResolve_ok index r p.2 sid samp v hsid hidx hcol)]
        have hsid2 : getField (setField r p.1 v) "sequencing_sample_id" = some sid := by
          rw [getField_setField_ne _ _ _ _ hni.1]
          exact hsid
        rw [statRow_ok_iff index m (setField r p.1 v) sid hsid2 hni.2]
        constructor
        · intro hall q hq
          rcases List.mem_cons.mp hq with rfl | hq2
          · exact ⟨samp, v, hidx, hcol⟩
          · exact hall q hq2
        · intro hall q hq
          exact hall q (List.mem_cons_of_mem p hq)

theorem statRow_error_shape (index : ArtifactIndex) :
    ∀ (m : List (String × String)) (r : Record) (sid : String)
    (e : PipelineError),
    getField r "sequencing_sample_id" = some sid →
    "sequencing_sample_id" ∉ m.map Prod.fst →
    projectRow (statResolve index) m r = .error e →
    ∃ k, e = .fatalKey k "mapping stats" ∧
      ((k = sid ∧ lookupKV index sid = none) ∨
       (∃ row, lookupKV index sid = some row ∧ (∃ f2, (f2, k) ∈ m) ∧
         lookupKV row k = none))
  | [], r, sid, e, _, _, h => by
    rw [projectRow_nil] at h
    exact Except.noConfusion h
  | p :: m, r, sid, e, hsid, hni, h => by
    simp only [List.map_cons, List.mem_cons, not_or] at hni
    cases hidx : lookupKV index sid with
    | none =>
      rw [projectRow_cons_error _ p m r _
        (statResolve_noSample index r p.2 sid hsid hidx)] at h
      injection h with h2
      exact ⟨sid, h2.symm, Or.inl ⟨rfl, rfl⟩⟩
    | some samp =>
      cases hcol : lookupKV samp p.2 with
      | none =>
        rw [projectRow_cons_error _ p m r _
          (statResolve_noCol index r p.2 sid samp hsid hidx hcol)] at h
        injection h with h2
        exact ⟨p.2, h2.symm,
          Or.inr ⟨samp, rfl, ⟨p.1, List.mem_cons_self p m⟩, hcol⟩⟩
      | some v =>
        rw [projectRow_cons_ok _ p m r v
          (statResolve_ok index r p.2 sid samp v hsid hidx hcol)] at h
        have hsid2 : getField (setField r p.1 v) "sequencing_sample_id" = some sid := by
          rw [getField_setField_ne _ _ _ _ hni.1]
          exact hsid
        obtain ⟨k, hk, hshape⟩ :=
          statRow_error_shape index m (setField r p.1 v) sid e hsid2 hni.2 h
        refine ⟨k, hk, ?_⟩
        rcases hshape with ⟨hk1, hk2⟩ | ⟨row, hrow, ⟨f2, hf2⟩, hmiss⟩
        · rw [hidx] at hk2
          exact Option.noConfusion hk2
        · rw [hidx] at hrow
          injection hrow with hrow2
          rw [← hrow2] at hmiss
          exact Or.inr ⟨samp, rfl, ⟨f2, List.mem_cons_of_mem p hf2⟩, hmiss⟩

theorem statRow_ok_written (index : ArtifactIndex) :
    ∀ (m : List (String × String)) (r out : Record) (sid : String),
    getField r "sequencing_sample_id" = some sid →
    "sequencing_sample_id" ∉ m.map Prod.fst →
    (m.map Prod.fst).Nodup →
    projectRow (statResolve index) m r = .ok out →
    ∀ p ∈ m, ∀ (row : Record) (v : String), lookupKV index sid = some row →
      lookupKV row p.2 = some v → getField out p.1 = some v
  | [], r, out, sid, _, _, _, _, p, hp, _, _, _, _ => absurd hp (by simp)
  | q :: m, r, out, sid, hsid, hni, hnd, h, p, hp, row, v, hrow, hv => by
    simp only [List.map_cons, List.mem_cons, not_or] at hni
    simp only [List.map_cons, List.nodup_cons] at hnd
    cases hidx : lookupKV index sid with
    | none => rw [hidx] at hrow; exact Option.noConfusion hrow
    | some samp =>
      rw [hidx] at hrow
      injection hrow with hrow2
      rw [← hrow2] at hv
      cases hcol : lookupKV samp q.2 with
      | none =>
        rw [projectRow_cons_error _ q m r _
          (statResolve_noCol index r q.2 sid samp hsid hidx hcol)] at h
        exact Except.noConfusion h
      | some v0 =>
        rw [projectRow_cons_ok _ q m r v0
          (statResolve_ok index r q.2 sid samp v0 hsid hidx hcol)] at h
        have hsid2 : getField (setField r q.1 v0) "sequencing_sample_id" = some sid := by
          rw [getField_setField_ne _ _ _ _ hni.1]
          exact hsid
        rcases List.mem_cons.mp hp with rfl | hp2
        · rw [hcol] at hv
          injection hv with hv2
          rw [← hv2]
          rw [projectRow_ok_notin m _ _ out p.1 h hnd.1,
            getField_setField_same]
        · exact statRow_ok_written index m (setField r q.1 v0) out sid hsid2
            hni.2 hnd.2 h p hp2 samp v hidx hv

/-! ## Software-version row lemmas -/

theorem foldME_cons {α β ε : Type} (f : β → α → Except ε β) (b : β) (a : α)
    (l : List α) :
    foldME f b (a :: l) =
      match f b a with
      | .error e => .error e
      | .ok b2 => foldME f b2 l := rfl

theorem versionInner_ok_notin (versions : List (String × List (String × String)))
    (field : String) :
    ∀ (kvs : List (String × String)) (r out : Record) (f : String),
    foldME (fun r3 kv =>
      match versionResolve versions kv with
      | .error e => .error e
      | .ok v => .ok (setField r3 field v)) r kvs = .ok out →
    f ≠ field → getField out f = getField r f
  | [], r, out, f, h, _ => by
    simp only [foldME] at h
    injection h with h2
    rw [h2]
  | kv :: kvs, r, out, f, h, hf => by
    rw [foldME_cons] at h
    cases hres : versionResolve versions kv with
    | error e =>
      rw [hres] at h
      exact Except.noConfusion h
    | ok v =>
      rw [hres] at h
      rw [versionInner_ok_notin versions field kvs _ out f h hf,
        getField_setField_ne _ _ _ _ hf]

theorem versionInner_superset (versions : List (String × List (String × String)))
    (field : String) :
    ∀ (kvs : List (String × String)) (r out : Record) (f w : String),
    foldME (fun r3 kv =>
      match versionResolve versions kv with
      | .error e => .error e
      | .ok v => .ok (setField r3 field v)) r kvs = .ok out →
    getField r f = some w → ∃ u, getField out f = some u
  | [], r, out, f, w, h, hw => by
    simp only [foldME] at h
    injection h with h2
    exact ⟨w, h2 ▸ hw⟩
  | kv :: kvs, r, out, f, w, h, hw => by
    rw [foldME_cons] at h
    cases hres : versionResolve versions kv with
    | error e =>
      rw [hres] at h
      exact Except.noConfusion h
    | ok v =>
      rw [hres] at h
      obtain ⟨u, hu⟩ := setField_superset r field v f w hw
      exact versionInner_superset versions field kvs _ out f u h hu

theorem versionRow_ok_notin (versions : List (String × List (String × String))) :
    ∀ (mapping : List (String × List (String × String))) (r out : Record)
    (f : String), versionRow versions mapping r = .ok out →
    f ∉ mapping.map Prod.fst → getField out f = getField r f
  | [], r, out, f, h, _ => by
    simp only [versionRow, foldME] at h
    injection h with h2
    rw [h2]
  | fv :: mapping, r, out, f, h, hf => by
    simp only [List.map_cons, List.mem_cons, not_or] at hf
    simp only [versionRow] at h
    rw [foldME_cons] at h
    cases hstep : foldME (fun r3 kv =>
      match versionResolve versions kv with
      | .error e => .error e
      | .ok v => .ok (setField r3 fv.1 v)) r fv.2 with
    | error e =>
      rw [hstep] at h
      exact Except.noConfusion h
    | ok r2 =>
      rw [hstep] at h
      rw [versionRow_ok_notin versions mapping r2 out f h hf.2,
        versionInner_ok_notin versions fv.1 fv.2 r r2 f hstep hf.1]

theorem versionRow_superset (versions : List (String × List (String × String))) :
    ∀ (mapping : List (String × List (String × String))) (r out : Record)
    (f w : String), versionRow versions mapping r = .ok out →
    getField r f = some w → ∃ u, getField out f = some u
  | [], r, out, f, w, h, hw => by
    simp only [versionRow, foldME] at h
    injection h with h2
    exact ⟨w, h2 ▸ hw⟩
  | fv :: mapping, r, out, f, w, h, hw => by
    simp only [versionRow] at h
    rw [foldME_cons] at h
    cases hstep : foldME (fun r3 kv =>
      match versionResolve versions kv with
      | .error e => .error e
      | .ok v => .ok (setField r3 fv.1 v)) r fv.2 with
    | error e =>
      rw [hstep] at h
      exact Except.noConfusion h
    | ok r2 =>
      rw [hstep] at h
      obtain ⟨u, hu⟩ := versionInner_superset versions fv.1 fv.2 r r2 f w hstep hw
      exact versionRow_superset versions mapping r2 out f u h hu

/-! ## Pangolin row lemmas -/

theorem pangolinRow_eq_noSid (env : Env) (r : Record)
    (h1 : getField r "sequencing_sample_id" = none) :
    pangolinRow env r = .error (.uncaughtKey "sequencing_sample_id") := by
  simp [pangolinRow, h1]

theorem pangolinRow_eq_noDate (env : Env) (r : Record) (sid : String)
    (h1 : getField r "sequencing_sample_id" = some sid)
    (h2 : getField r "analysis_date" = none) :
    pangolinRow env r = .error (.uncaughtKey "analysis_date") := by
  simp [pangolinRow, h1, h2]

theorem pangolinRow_eq_noFile (env : Env) (r : Record) (sid date : String)
    (h1 : getField r "sequencing_sample_id" = some sid)
    (h2 : getField r "analysis_date" = some date)
    (h3 : env.readCsvComma (osPathJoin env.inputFolder (pangolinFileName sid date)) = none) :
    pangolinRow env r = .ok (writeAll (fun _ => "") env.config.mapping_pangolin r) := by
  simp [pangolinRow, h1, h2, h3]

theorem pangolinRow_eq_emptyFile (env : Env) (r : Record) (sid date : String)
    (h1 : getField r "sequencing_sample_id" = some sid)
    (h2 : getField r "analysis_date" = some date)
    (h3 : env.readCsvComma (osPathJoin env.inputFolder (pangolinFileName sid date)) = some []) :
    pangolinRow env r = .error .uncaughtIndexError := by
  simp [pangolinRow, h1, h2, h3]

theorem pangolinRow_eq_found (env : Env) (r : Record) (sid date pangKey : String)
    (samp : Record) (rest : ArtifactIndex)
    (h1 : getField r "sequencing_sample_id" = some sid)
    (h2 : getField r "analysis_date" = some date)
    (h3 : env.readCsvComma (osPathJoin env.inputFolder (pangolinFileName sid date)) =
      some ((pangKey, samp) :: rest)) :
    pangolinRow env r = projectRow (pangResolve samp) env.config.mapping_pangolin r := by
  simp [pangolinRow, h1, h2, h3, pangResolve]

theorem pangolinRow_ok_notin (env : Env) (r out : Record) (f : String)
    (h : pangolinRow env r = .ok out)
    (hf : f ∉ env.config.mapping_pangolin.map Prod.fst) :
    getField out f = getField r f := by
  cases hsid : getField r "sequencing_sample_id" with
  | none =>
    rw [pangolinRow_eq_noSid env r hsid] at h
    exact Except.noConfusion h
  | some sid =>
    cases hdate : getField r "analysis_date" with
    | none =>
      rw [pangolinRow_eq_noDate env r sid hsid hdate] at h
      exact Except.noConfusion h
    | some date =>
      cases hread : env.readCsvComma
          (osPathJoin env.inputFolder (pangolinFileName sid date)) with
      | none =>
        rw [pangolinRow_eq_noFile env r sid date hsid hdate hread] at h
        injection h with h2
        rw [← h2]
        exact getField_writeAll_notin _ _ r f hf
      | some fData =>
        cases fData with
        | nil =>
          rw [pangolinRow_eq_emptyFile env r sid date hsid hdate hread] at h
          exact Except.noConfusion h
        | cons entry rest =>
          rw [pangolinRow_eq_found env r sid date entry.1 entry.2 rest hsid hdate
            (by rw [hread])] at h
          exact projectRow_ok_notin _ _ r out f h hf

theorem pangolinRow_superset (env : Env) (r out : Record) (f w : String)
    (h : pangolinRow env r = .ok out) (hw : getField r f = some w) :
    ∃ u, getField out f = some u := by
  cases hsid : getField r "sequencing_sample_id" with
  | none =>
    rw [pangolinRow_eq_noSid env r hsid] at h
    exact Except.noConfusion h
  | some sid =>
    cases hdate : getField r "analysis_date" with
    | none =>
      rw [pangolinRow_eq_noDate env r sid hsid hdate] at h
      exact Except.noConfusion h
    | some date =>
      cases hread : env.readCsvComma
          (osPathJoin env.inputFolder (pangolinFileName sid date)) with
      | none =>
        rw [pangolinRow_eq_noFile env r sid date hsid hdate hread] at h
        injection h with h2
        rw [← h2]
        exact writeAll_superset _ _ r f w hw
      | some fData =>
        cases fData with
        | nil =>
          rw [pangolinRow_eq_emptyFile env r sid date hsid hdate hread] at h
          exact Except.noConfusion h
        | cons entry rest =>
          rw [pangolinRow_eq_found env r sid date entry.1 entry.2 rest hsid hdate
            (by rw [hread])] at h
          exact projectRow_superset _ _ r out f w h hw

/-! ## Consensus row lemmas -/

/-- The six field names the consensus success path writes under hardcoded
names (lines 155-166), independently of the configured mapping. -/
def consensusHardcoded : List String :=
  ["consensus_genome_length", "consensus_sequence_name",
   "consensus_sequence_filepath", "consensus_sequence_filename",
   "consensus_sequence_md5", "number_of_base_pairs_sequenced"]

theorem getField_consensusStamp_notin (env : Env) (fasta : Fasta)
    (fName fPath : String) (r : Record) (f : String)
    (hf : f ∉ consensusHardcoded) :
    getField (consensusStamp env fasta fName fPath r) f = getField r f := by
  simp only [consensusHardcoded, List.mem_cons, not_or] at hf
  unfold consensusStamp
  rw [getField_setField_ne _ _ _ _ hf.2.2.2.2.1,
    getField_setField_ne _ _ _ _ hf.2.2.2.1,
    getField_setField_ne _ _ _ _ hf.2.2.1,
    getField_setField_ne _ _ _ _ hf.2.1,
    getField_setField_ne _ _ _ _ hf.1]

theorem consensusStamp_superset (env : Env) (fasta : Fasta)
    (fName fPath : String) (r : Record) (f w : String)
    (hw : getField r f = some w) :
    ∃ u, getField (consensusStamp env fasta fName fPath r) f = some u := by
  unfold consensusStamp
  obtain ⟨u1, h1⟩ := setField_superset r "consensus_genome_length" (toString fasta.length) f w hw
  obtain ⟨u2, h2⟩ := setField_superset _ "consensus_sequence_name" fasta.description f u1 h1
  obtain ⟨u3, h3⟩ := setField_superset _ "consensus_sequence_filepath" env.inputFolder f u2 h2
  obtain ⟨u4, h4⟩ := setField_superset _ "consensus_sequence_filename" fName f u3 h3
  exact setField_superset _ "consensus_sequence_md5" (env.md5 fPath) f u4 h4

theorem consensusSuccess_eq_noRl (env : Env) (fasta : Fasta) (fName fPath : String)
    (r : Record)
    (hrl : getField (consensusStamp env fasta fName fPath r) "read_length" = none) :
    consensusSuccess env fasta fName fPath r = .error (.uncaughtKey "read_length") := by
  simp only [consensusSuccess, hrl]

theorem consensusSuccess_eq_badInt (env : Env) (fasta : Fasta) (fName fPath : String)
    (r : Record) (rl : String)
    (hrl : getField (consensusStamp env fasta fName fPath r) "read_length" = some rl)
    (hn : pyInt rl = none) :
    consensusSuccess env fasta fName fPath r = .error (.uncaughtValueError rl) := by
  simp only [consensusSuccess, hrl, hn]

theorem consensusSuccess_eq_noSid2 (env : Env) (fasta : Fasta) (fName fPath : String)
    (r : Record) (rl : String) (n : Int)
    (hrl : getField (consensusStamp env fasta fName fPath r) "read_length" = some rl)
    (hn : pyInt rl = some n)
    (hsid2 : getField (consensusStamp env fasta fName fPath r) "sequencing_sample_id" = none) :
    consensusSuccess env fasta fName fPath r = .error (.uncaughtKey "sequencing_sample_id") := by
  simp only [consensusSuccess, hrl, hn, hsid2]

theorem consensusSuccess_eq_ok (env : Env) (fasta : Fasta) (fName fPath : String)
    (r : Record) (rl : String) (n : Int) (sid2 : String)
    (hrl : getField (consensusStamp env fasta fName fPath r) "read_length" = some rl)
    (hn : pyInt rl = some n)
    (hsid2 : getField (consensusStamp env fasta fName fPath r) "sequencing_sample_id" = some sid2) :
    consensusSuccess env fasta fName fPath r =
      (if sid2 ≠ "" then
        .ok (setField (consensusStamp env fasta fName fPath r)
          "number_of_base_pairs_sequenced" (toString (n * (fasta.length : Int) * 2)))
      else
        .ok (setField (consensusStamp env fasta fName fPath r)
          "number_of_base_pairs_sequenced" (toString (n * (fasta.length : Int))))) := by
  simp only [consensusSuccess, hrl, hn, hsid2]

theorem consensusSuccess_ok_notin (env : Env) (fasta : Fasta)
    (fName fPath : String) (r out : Record) (f : String)
    (h : consensusSuccess env fasta fName fPath r = .ok out)
    (hf : f ∉ consensusHardcoded) : getField out f = getField r f := by
  have hnb : f ≠ "number_of_base_pairs_sequenced" := by
    intro hc
    exact hf (by rw [hc]; simp [consensusHardcoded])
  cases hrl : getField (consensusStamp env fasta fName fPath r) "read_length" with
  | none =>
    rw [consensusSuccess_eq_noRl env fasta fName fPath r hrl] at h
    exact Except.noConfusion h
  | some rl =>
    cases hn : pyInt rl with
    | none =>
      rw [consensusSuccess_eq_badInt env fasta fName fPath r rl hrl hn] at h
      exact Except.noConfusion h
    | some n =>
      cases hsid2 : getField (consensusStamp env fasta fName fPath r) "sequencing_sample_id" with
      | none =>
        rw [consensusSuccess_eq_noSid2 env fasta fName fPath r rl n hrl hn hsid2] at h
        exact Except.noConfusion h
      | some sid2 =>
        rw [consensusSuccess_eq_ok env fasta fName fPath r rl n sid2 hrl hn hsid2] at h
        by_cases hne : sid2 = ""
        · rw [if_neg (by simp [hne])] at h
          injection h with h2
          rw [← h2, getField_setField_ne _ _ _ _ hnb,
            getField_consensusStamp_notin env fasta fName fPath r f hf]
        · rw [if_pos hne] at h
          injection h with h2
          rw [← h2, getField_setField_ne _ _ _ _ hnb,
            getField_consensusStamp_notin env fasta fName fPath r f hf]

theorem consensusSuccess_superset (env : Env) (fasta : Fasta)
    (fName fPath : String) (r out : Record) (f w : String)
    (h : consensusSuccess env fasta fName fPath r = .ok out)
    (hw : getField r f = some w) : ∃ u, getField out f = some u := by
  obtain ⟨u, hu⟩ := consensusStamp_superset env fasta fName fPath r f w hw
  cases hrl : getField (consensusStamp env fasta fName fPath r) "read_length" with
  | none =>
    rw [consensusSuccess_eq_noRl env fasta fName fPath r hrl] at h
    exact Except.noConfusion h
  | some rl =>
    cases hn : pyInt rl with
    | none =>
      rw [consensusSuccess_eq_badInt env fasta fName fPath r rl hrl hn] at h
      exact Except.noConfusion h
    | some n =>
      cases hsid2 : getField (consensusStamp env fasta fName fPath r) "sequencing_sample_id" with
      | none =>
        rw [consensusSuccess_eq_noSid2 env fasta fName fPath r rl n hrl hn hsid2] at h
        exact Except.noConfusion h
      | some sid2 =>
        rw [consensusSuccess_eq_ok env fasta fName fPath r rl n sid2 hrl hn hsid2] at h
        by_cases hne : sid2 = ""
        · rw [if_neg (by simp [hne])] at h
          injection h with h2
          rw [← h2]
          exact setField_superset _ _ _ f u hu
        · rw [if_pos hne] at h
          injection h with h2
          rw [← h2]
          exact setField_superset _ _ _ f u hu

theorem consensusRow_eq_noSid (env : Env) (r : Record)
    (h1 : getField r "sequencing_sample_id" = none) :
    consensusRow env r = .error (.uncaughtKey "sequencing_sample_id") := by
  simp [consensusRow, h1]

theorem consensusRow_eq_noFile (env : Env) (r : Record) (sid : String)
    (h1 : getField r "sequencing_sample_id" = some sid)
    (h2 : env.readFasta (osPathJoin env.inputFolder (normalizeSampleId sid ++ ".consensus.fa")) = none) :
    consensusRow env r = .ok (writeAll (fun _ => "") env.config.mapping_consensus r) := by
  simp [consensusRow, h1, h2]

theorem consensusRow_eq_found (env : Env) (r : Record) (sid : String) (fasta : Fasta)
    (h1 : getField r "sequencing_sample_id" = some sid)
    (h2 : env.readFasta (osPathJoin env.inputFolder (normalizeSampleId sid ++ ".consensus.fa")) = some fasta) :
    consensusRow env r = consensusSuccess env fasta (normalizeSampleId sid ++ ".consensus.fa")
      (osPathJoin env.inputFolder (normalizeSampleId sid ++ ".consensus.fa")) r := by
  simp [consensusRow, h1, h2]

theorem consensusRow_ok_notin (env : Env) (r out : Record) (f : String)
    (h : consensusRow env r = .ok out)
    (hf1 : f ∉ env.config.mapping_consensus.map Prod.fst)
    (hf2 : f ∉ consensusHardcoded) : getField out f = getField r f := by
  cases hsid : getField r "sequencing_sample_id" with
  | none =>
    rw [consensusRow_eq_noSid env r hsid] at h
    exact Except.noConfusion h
  | some sid =>
    cases hread : env.readFasta
        (osPathJoin env.inputFolder (normalizeSampleId sid ++ ".consensus.fa")) with
    | none =>
      rw [consensusRow_eq_noFile env r sid hsid hread] at h
      injection h with h2
      rw [← h2]
      exact getField_writeAll_notin _ _ r f hf1
    | some fasta =>
      rw [consensusRow_eq_found env r sid fasta hsid hread] at h
      exact consensusSuccess_ok_notin env fasta _ _ r out f h hf2

theorem consensusRow_superset (env : Env) (r out : Record) (f w : String)
    (h : consensusRow env r = .ok out) (hw : getField r f = some w) :
    ∃ u, getField out f = some u := by
  cases hsid : getField r "sequencing_sample_id" with
  | none =>
    rw [consensusRow_eq_noSid env r hsid] at h
    exact Except.noConfusion h
  | some sid =>
    cases hread : env.readFasta
        (osPathJoin env.inputFolder (normalizeSampleId sid ++ ".consensus.fa")) with
    | none =>
      rw [consensusRow_eq_noFile env r sid hsid hread] at h
      injection h with h2
      rw [← h2]
      exact writeAll_superset _ _ r f w hw
    | some fasta =>
      rw [consensusRow_eq_found env r sid fasta hsid hread] at h
      exact consensusSuccess_superset env fasta _ _ r out f w h hw

/-! ## Structural stage invariants -/

/-- A per-record transformation preserves the sample identity field and never
removes a field. -/
def rowStructOK (step : Record → Except PipelineError Record) : Prop :=
  ∀ r out, step r = .ok out →
    getField out "sequencing_sample_id" = getField r "sequencing_sample_id" ∧
    ∀ f v, getField r f = some v → ∃ w, getField out f = some w

/-- A stage preserves the number of records and, per record, the sample
identity field and the field set (no field removed). -/
def stageStructOK (step : RecordSet → Except PipelineError RecordSet) : Prop :=
  ∀ j out, step j = .ok out →
    out.length = j.length ∧
    ∀ (i : Nat) (h1 : i < j.length) (h2 : i < out.length),
      getField (out.get ⟨i, h2⟩) "sequencing_sample_id" =
        getField (j.get ⟨i, h1⟩) "sequencing_sample_id" ∧
      ∀ f v, getField (j.get ⟨i, h1⟩) f = some v →
        ∃ w, getField (out.get ⟨i, h2⟩) f = some w

theorem mapME_structOK (f : Record → Except PipelineError Record)
    (hrow : rowStructOK f) : stageStructOK (mapME f) := by
  intro j out h
  refine ⟨mapME_ok_length f j out h, fun i h1 h2 => ?_⟩
  exact hrow _ _ (mapME_ok_get f j out h i h1 h2)

theorem map_structOK (g : Record → Record)
    (hrow : ∀ r, getField (g r) "sequencing_sample_id" =
        getField r "sequencing_sample_id" ∧
      ∀ f v, getField r f = some v → ∃ w, getField (g r) f = some w) :
    stageStructOK (fun j => .ok (j.map g)) := by
  intro j out h
  injection h with h2
  subst h2
  refine ⟨by simp, fun i h1 h2 => ?_⟩
  have hg : (j.map g).get ⟨i, h2⟩ = g (j.get ⟨i, h1⟩) := by
    simp
  rw [hg]
  exact hrow (j.get ⟨i, h1⟩)

theorem writeAll_rowStruct (mapping : List (String × String))
    (g : String × String → String)
    (hsid : "sequencing_sample_id" ∉ mapping.map Prod.fst) (r : Record) :
    getField (writeAll g mapping r) "sequencing_sample_id" =
      getField r "sequencing_sample_id" ∧
    ∀ f v, getField r f = some v → ∃ w, getField (writeAll g mapping r) f = some w :=
  ⟨getField_writeAll_notin mapping g r _ hsid,
   fun f v hv => writeAll_superset mapping g r f v hv⟩

theorem statRow_rowStruct (index : ArtifactIndex) (mapping : List (String × String))
    (hsid : "sequencing_sample_id" ∉ mapping.map Prod.fst) :
    rowStructOK (projectRow (statResolve index) mapping) :=
  fun r out h =>
    ⟨projectRow_ok_notin mapping _ r out _ h hsid,
     fun f v hv => projectRow_superset mapping _ r out f v h hv⟩

theorem versionRow_rowStruct (versions : List (String × List (String × String)))
    (mapping : List (String × List (String × String)))
    (hsid : "sequencing_sample_id" ∉ mapping.map Prod.fst) :
    rowStructOK (versionRow versions mapping) :=
  fun r out h =>
    ⟨versionRow_ok_notin versions mapping r out _ h hsid,
     fun f v hv => versionRow_superset versions mapping r out f v h hv⟩

theorem pangolinRow_rowStruct (env : Env)
    (hsid : "sequencing_sample_id" ∉ env.config.mapping_pangolin.map Prod.fst) :
    rowStructOK (pangolinRow env) :=
  fun r out h =>
    ⟨pangolinRow_ok_notin env r out _ h hsid,
     fun f v hv => pangolinRow_superset env r out f v h hv⟩

theorem consensusRow_rowStruct (env : Env)
    (hsid : "sequencing_sample_id" ∉ env.config.mapping_consensus.map Prod.fst) :
    rowStructOK (consensusRow env) :=
  fun r out h =>
    ⟨consensusRow_ok_notin env r out _ h hsid (by decide),
     fun f v hv => consensusRow_superset env r out f v h hv⟩

theorem longTableRow_rowStruct (env : Env) (r : Record) :
    getField (setField r "long_table_path" (longTableValue env)) "sequencing_sample_id" =
      getField r "sequencing_sample_id" ∧
    ∀ f v, getField r f = some v →
      ∃ w, getField (setField r "long_table_path" (longTableValue env)) f = some w :=
  ⟨getField_setField_ne r _ _ _ (by decide),
   fun f v hv => setField_superset r _ _ f v hv⟩

/-! ## Pipeline-level lemmas -/

theorem includeSoftwareVersions_eq_noYaml (env : Env) (j : RecordSet)
    (hv : env.versionsYaml = none) :
    includeSoftwareVersions env j = .error .yamlError := by
  simp [includeSoftwareVersions, hv]

theorem includeSoftwareVersions_eq_some (env : Env) (j : RecordSet)
    (versions : List (String × List (String × String)))
    (hv : env.versionsYaml = some versions) :
    includeSoftwareVersions env j =
      mapME (versionRow versions env.config.mapping_version) j := by
  simp [includeSoftwareVersions, hv]

/-- When a run completes, each stage of `create_bioinfo_file` succeeded, in
the fixed order of the source, and the output names are the ones built on
lines 268-273. -/
theorem createBioinfoFile_ok_chain (env : Env) (out : RunOutput)
    (h : createBioinfoFile env = .ok out) :
    ∃ j0 j2 j3 j4 j5 j6,
      collectInfoFromLabJson env = .ok j0 ∧
      includeDataFromMappingStats env (addFixedValues env.config.fixed_values j0) = .ok j2 ∧
      includeSoftwareVersions env j2 = .ok j3 ∧
      includeVariantMetrics env j3 = .ok j4 ∧
      includePangolinData env j4 = .ok j5 ∧
      includeConsensusData env j5 = .ok j6 ∧
      out.records = includeLongTablePath env j6 ∧
      out.outPath = osPathJoin env.outputFolder (outputFileName env.jsonFile) ∧
      out.madeDir = env.outputFolder := by
  unfold createBioinfoFile at h
  split at h
  · exact Except.noConfusion h
  · rename_i j0 h0
    split at h
    · exact Except.noConfusion h
    · rename_i j2 h2
      split at h
      · exact Except.noConfusion h
      · rename_i j3 h3
        split at h
        · exact Except.noConfusion h
        · rename_i j4 h4
          split at h
          · exact Except.noConfusion h
          · rename_i j5 h5
            split at h
            · exact Except.noConfusion h
            · rename_i j6 h6
              injection h with h7
              exact ⟨j0, j2, j3, j4, j5, j6, h0, h2, h3, h4, h5, h6,
                by rw [← h7], by rw [← h7], by rw [← h7]⟩

/-! ## Concrete run environments -/

/-- A small configuration with one field per stage mapping. -/
def cfgOK : Config where
  fixed_values := [("country", "ES")]
  mapping_stats := [("depth_of_coverage_value", "medianDPcoveragevirus")]
  mapping_version := [("variant_calling_software_version", [("ivar", "version")])]
  mapping_variant_metrics := [("ns_per_100_kbp", "N_per_100kb")]
  mapping_pangolin := [("lineage_name", "lineage")]
  mapping_consensus := [("consensus_genome_length", "genome_length")]

/-- A concrete run environment on which the whole pipeline succeeds (the
per-sample pangolin and consensus files are absent, which is recoverable). -/
def envOK : Env where
  jsonFile := "/data/lab.json"
  inputFolder := "/analysis"
  outputFolder := "/out"
  config := cfgOK
  readJson := some [[("sequencing_sample_id", "S-001"), ("analysis_date", "20210501"),
    ("read_length", "150")]]
  mappingStatsIndex := [("S-001", [("medianDPcoveragevirus", "160.5")])]
  variantMetricsIndex := [("S-001", [("N_per_100kb", "3.25")])]
  versionsYaml := some [("ivar", [("version", "1.3.1")])]
  readCsvComma := fun _ => none
  readFasta := fun _ => none
  md5 := fun _ => "d41d8cd98f00b204e9800998ecf8427e"
  longTableMatches := []

/-- The run output of `envOK`. -/
def outOK : RunOutput where
  records := [[("sequencing_sample_id", "S-001"), ("analysis_date", "20210501"),
    ("read_length", "150"), ("country", "ES"), ("depth_of_coverage_value", "160.5"),
    ("variant_calling_software_version", "1.3.1"), ("ns_per_100_kbp", "3.25"),
    ("lineage_name", ""), ("consensus_genome_length", ""), ("long_table_path", "")]]
  outPath := "/out/bioinfo_lab.json"
  madeDir := "/out"

/-- An environment whose pangolin files are all absent. -/
def envC3 : Env where
  jsonFile := "lab.json"
  inputFolder := "/analysis"
  outputFolder := "/out"
  config := cfgOK
  readJson := none
  mappingStatsIndex := []
  variantMetricsIndex := []
  versionsYaml := none
  readCsvComma := fun _ => none
  readFasta := fun _ => none
  md5 := fun _ => ""
  longTableMatches := []

/-- A record carrying only the identity and date fields. -/
def rowC3 : Record := [("sequencing_sample_id", "X1"), ("analysis_date", "2021-05-01")]

/-- An environment whose consensus reader returns a 30000-base sequence for
every path. -/
def envC4 : Env where
  jsonFile := "lab.json"
  inputFolder := "/analysis"
  outputFolder := "/out"
  config := cfgOK
  readJson := none
  mappingStatsIndex := []
  variantMetricsIndex := []
  versionsYaml := none
  readCsvComma := fun _ => none
  readFasta := fun _ => some { length := 30000, description := "NC_045512.2" }
  md5 := fun _ => "abc123"
  longTableMatches := []

/-- A record with a non-empty sample id and `read_length = "150"`. -/
def rowC4 : Record := [("sequencing_sample_id", "S1"), ("read_length", "150")]

/-- An environment whose pangolin reader returns a one-row file with the
configured `lineage` column for every path. -/
def envC10 : Env where
  jsonFile := "lab.json"
  inputFolder := "/analysis"
  outputFolder := "/out"
  config := cfgOK
  readJson := none
  mappingStatsIndex := []
  variantMetricsIndex := []
  versionsYaml := none
  readCsvComma := fun _ => some [("X1", [("lineage", "B.1.1.7")])]
  readFasta := fun _ => none
  md5 := fun _ => ""
  longTableMatches := []

/-! ## Claims -/

/-- C1: the claim says a run never pauses awaiting interaction, but line 235
of `collect_info_from_lab_json` executes `import pdb; pdb.set_trace()`
unconditionally once the lab json parses: every run that reaches
serialization suspended exactly once for interactive debugger input. -/
theorem completed_run_pauses_for_debugger (env : Env) (out : RunOutput)
    (h : createBioinfoFile env = .ok out) : runPauses env = 1 := by
  obtain ⟨j0, _, _, _, _, _, h0, _⟩ := createBioinfoFile_ok_chain env out h
  unfold collectInfoFromLabJson at h0
  unfold runPauses
  cases hj : env.readJson with
  | none => rw [hj] at h0; exact Except.noConfusion h0
  | some jj => rfl

/-- C1 witness: the concrete successful run pauses at the debugger. -/
theorem completed_run_pauses_for_debugger_witness : runPauses envOK = 1 :=
  completed_run_pauses_for_debugger envOK outOK (by rfl)

/-- C3: in the lineage stage, a record whose per-sample pangolin file
(`<normalized-id>.pangolin.<analysis_date>.csv` in the input directory) is
absent gets every configured target field set to the empty string, the row
body returns normally (never an error for a missing file), and the stage is
the record-by-record iteration of that body. -/
theorem pangolin_missing_file_recoverable (env : Env) (r : Record) (sid date : String)
    (hsid : getField r "sequencing_sample_id" = some sid)
    (hdate : getField r "analysis_date" = some date)
    (hmiss : env.readCsvComma (osPathJoin env.inputFolder (pangolinFileName sid date)) = none) :
    pangolinRow env r = .ok (writeAll (fun _ => "") env.config.mapping_pangolin r) ∧
    (∀ p, p ∈ env.config.mapping_pangolin →
      getField (writeAll (fun _ => "") env.config.mapping_pangolin r) p.1 = some "") ∧
    ∀ j, includePangolinData env j = mapME (pangolinRow env) j := by
  refine ⟨pangolinRow_eq_noFile env r sid date hsid hdate hmiss, fun p hp => ?_,
    fun j => rfl⟩
  exact getField_writeAll_const _ "" r p.1 (List.mem_map_of_mem Prod.fst hp)

/-- C3 witness: the record `X1` dated `2021-05-01` with no pangolin file on
disk resolves all configured lineage fields to the empty string. -/
theorem pangolin_missing_file_recoverable_witness :
    pangolinRow envC3 rowC3 = .ok (writeAll (fun _ => "") envC3.config.mapping_pangolin rowC3) ∧
    (∀ p, p ∈ envC3.config.mapping_pangolin →
      getField (writeAll (fun _ => "") envC3.config.mapping_pangolin rowC3) p.1 = some "") ∧
    ∀ j, includePangolinData envC3 j = mapME (pangolinRow envC3) j :=
  pangolin_missing_file_recoverable envC3 rowC3 "X1" "2021-05-01" (by decide) (by decide) rfl

/-- C4: on the consensus success path, `number_of_base_pairs_sequenced` is the
decimal rendering of `int(read_length) * len(sequence)`, doubled exactly when
the record's `sequencing_sample_id` is non-empty. -/
theorem consensus_base_pairs_formula (env : Env) (r : Record) (sid rl : String)
    (n : Int) (fasta : Fasta)
    (hsid : getField r "sequencing_sample_id" = some sid)
    (hrl : getField r "read_length" = some rl)
    (hn : pyInt rl = some n)
    (hread : env.readFasta (osPathJoin env.inputFolder
      (normalizeSampleId sid ++ ".consensus.fa")) = some fasta) :
    ∃ out, consensusRow env r = .ok out ∧
      getField out "number_of_base_pairs_sequenced" =
        some (if sid ≠ "" then toString (n * (fasta.length : Int) * 2)
          else toString (n * (fasta.length : Int))) := by
  rw [consensusRow_eq_found env r sid fasta hsid hread]
  have hrl5 : getField (consensusStamp env fasta (normalizeSampleId sid ++ ".consensus.fa")
      (osPathJoin env.inputFolder (normalizeSampleId sid ++ ".consensus.fa")) r)
      "read_length" = some rl := by
    rw [getField_consensusStamp_notin env fasta _ _ r _ (by decide)]
    exact hrl
  have hsid5 : getField (consensusStamp env fasta (normalizeSampleId sid ++ ".consensus.fa")
      (osPathJoin env.inputFolder (normalizeSampleId sid ++ ".consensus.fa")) r)
      "sequencing_sample_id" = some sid := by
    rw [getField_consensusStamp_notin env fasta _ _ r _ (by decide)]
    exact hsid
  rw [consensusSuccess_eq_ok env fasta _ _ r rl n sid hrl5 hn hsid5]
  by_cases hne : sid = ""
  · rw [if_neg (by simp [hne])]
    refine ⟨_, rfl, ?_⟩
    rw [getField_setField_same]
    simp [hne]
  · rw [if_pos hne]
    refine ⟨_, rfl, ?_⟩
    rw [getField_setField_same]
    simp [hne]

/-- C4 witness: a 30000-base sequence, `read_length = "150"` and a non-empty
sample id yield the string `"9000000"`. -/
theorem consensus_base_pairs_formula_witness :
    (∃ out, consensusRow envC4 rowC4 = .ok out ∧
      getField out "number_of_base_pairs_sequenced" =
        some (if ("S1" : String) ≠ "" then
          toString ((150 : Int) * (((30000 : Nat) : Int)) * 2)
          else toString ((150 : Int) * (((30000 : Nat) : Int))))) ∧
    toString ((150 : Int) * (((30000 : Nat) : Int)) * 2) = "9000000" :=
  ⟨consensus_base_pairs_formula envC4 rowC4 "S1" "150" 150
    { length := 30000, description := "NC_045512.2" } (by decide) (by decide)
    (by decide) rfl, by decide⟩

/-- C6: the sample-identity normalization replaces every hyphen by an
underscore when a hyphen is present, leaves the identifier unchanged
otherwise, and in particular maps `"S-001"` to `"S_001"` and `"S001"` to
itself. -/
theorem normalize_sample_id_spec :
    (∀ s : String, s.data.contains '-' = true →
      normalizeSampleId s = String.mk (s.data.map (fun c => if c = '-' then '_' else c))) ∧
    (∀ s : String, s.data.contains '-' = false → normalizeSampleId s = s) ∧
    normalizeSampleId "S-001" = "S_001" ∧ normalizeSampleId "S001" = "S001" := by
  refine ⟨fun s h => ?_, fun s h => ?_, by decide, by decide⟩
  · unfold normalizeSampleId
    rw [if_pos h]
  · unfold normalizeSampleId
    rw [if_neg (fun hc => Bool.noConfusion (h ▸ hc))]

/-- C6 witness: the hyphen branch applied to `"S-001"`. -/
theorem normalize_sample_id_spec_witness :
    normalizeSampleId "S-001" =
      String.mk ("S-001".data.map (fun c => if c = '-' then '_' else c)) :=
  normalize_sample_id_spec.1 "S-001" (by decide)

/-- C9: the long-table stage is total (it cannot abort the run), keeps the
record count, writes the single resolved value into `long_table_path` of
every record, and that value is the empty string when the glob found nothing,
else the first match. -/
theorem long_table_path_uniform (env : Env) (j : RecordSet) :
    (includeLongTablePath env j).length = j.length ∧
    (∀ r, r ∈ includeLongTablePath env j →
      getField r "long_table_path" = some (longTableValue env)) ∧
    (env.longTableMatches = [] → longTableValue env = "") ∧
    (∀ (p : String) (l : List String), env.longTableMatches = p :: l →
      longTableValue env = p) := by
  refine ⟨by simp [includeLongTablePath], fun r hr => ?_, fun hm => ?_, fun p l hm => ?_⟩
  · obtain ⟨r0, _, rfl⟩ := List.mem_map.mp hr
    exact getField_setField_same r0 _ _
  · simp [longTableValue, hm]
  · simp [longTableValue, hm]

/-- C9 witness: with no glob match, the record gets `long_table_path = ""`. -/
theorem long_table_path_uniform_witness :
    getField (setField [("a", "b")] "long_table_path" (longTableValue envOK))
      "long_table_path" = some (longTableValue envOK) ∧
    longTableValue envOK = "" :=
  ⟨(long_table_path_uniform envOK [[("a", "b")]]).2.1 _ (by decide),
   (long_table_path_uniform envOK [[("a", "b")]]).2.2.1 rfl⟩

/-- C10: the lineage stage recovers only from file absence; when the file
exists, the first row and the configured source columns are read unguarded,
and the row body is total exactly under the precondition that every parsed
pangolin file is non-empty and carries every configured source column. -/
theorem pangolin_total_under_precondition (env : Env) (r : Record) (sid date : String)
    (hsid : getField r "sequencing_sample_id" = some sid)
    (hdate : getField r "analysis_date" = some date)
    (hfile : ∀ idx, env.readCsvComma (osPathJoin env.inputFolder
        (pangolinFileName sid date)) = some idx →
      ∃ pangKey samp rest, idx = (pangKey, samp) :: rest ∧
        ∀ p, p ∈ env.config.mapping_pangolin → ∃ v, lookupKV samp p.2 = some v) :
    ∃ out, pangolinRow env r = .ok out := by
  cases hread : env.readCsvComma (osPathJoin env.inputFolder (pangolinFileName sid date)) with
  | none => exact ⟨_, pangolinRow_eq_noFile env r sid date hsid hdate hread⟩
  | some idx =>
    obtain ⟨pangKey, samp, rest, hidx, hcols⟩ := hfile idx hread
    subst hidx
    rw [pangolinRow_eq_found env r sid date pangKey samp rest hsid hdate hread]
    apply projectRow_ok_of_resolve
    intro r2 p hp
    obtain ⟨v, hv⟩ := hcols p hp
    exact ⟨v, by simp [pangResolve, hv]⟩

/-- C10 witness: a present one-row pangolin file carrying the configured
column makes the row body succeed. -/
theorem pangolin_total_under_precondition_witness :
    ∃ out, pangolinRow envC10 rowC3 = .ok out :=
  pangolin_total_under_precondition envC10 rowC3 "X1" "2021-05-01" (by decide) (by decide)
    (by
      intro idx hidx
      injection hidx with hh
      exact ⟨"X1", [("lineage", "B.1.1.7")], [], hh.symm,
        fun p hp => by
          simp only [envC10, cfgOK, List.mem_singleton] at hp
          subst hp
          exact ⟨"B.1.1.7", by decide⟩⟩)

/-- C7: when a run completes, the orchestrator applied the stages in exactly
the fixed source order — fixed-value injection, mapping-stats,
software-version, variant-metrics, lineage-classification, consensus-sequence,
long-table-path — and serialized the result to
`<output-directory>/bioinfo_<input-basename>.json`, creating the output
directory. -/
theorem create_bioinfo_stage_order (env : Env) (out : RunOutput)
    (h : createBioinfoFile env = .ok out) :
    ∃ j0 j2 j3 j4 j5 j6,
      collectInfoFromLabJson env = .ok j0 ∧
      includeDataFromMappingStats env (addFixedValues env.config.fixed_values j0) = .ok j2 ∧
      includeSoftwareVersions env j2 = .ok j3 ∧
      includeVariantMetrics env j3 = .ok j4 ∧
      includePangolinData env j4 = .ok j5 ∧
      includeConsensusData env j5 = .ok j6 ∧
      out.records = includeLongTablePath env j6 ∧
      out.outPath = osPathJoin env.outputFolder (outputFileName env.jsonFile) ∧
      out.madeDir = env.outputFolder :=
  createBioinfoFile_ok_chain env out h

/-- C7 witness: the concrete successful run, with its stage chain and its
output path `/out/bioinfo_lab.json`. -/
theorem create_bioinfo_stage_order_witness :
    ∃ j0 j2 j3 j4 j5 j6,
      collectInfoFromLabJson envOK = .ok j0 ∧
      includeDataFromMappingStats envOK (addFixedValues envOK.config.fixed_values j0) = .ok j2 ∧
      includeSoftwareVersions envOK j2 = .ok j3 ∧
      includeVariantMetrics envOK j3 = .ok j4 ∧
      includePangolinData envOK j4 = .ok j5 ∧
      includeConsensusData envOK j5 = .ok j6 ∧
      outOK.records = includeLongTablePath envOK j6 ∧
      outOK.outPath = osPathJoin envOK.outputFolder (outputFileName envOK.jsonFile) ∧
      outOK.madeDir = envOK.outputFolder :=
  create_bioinfo_stage_order envOK outOK (by rfl)

/-- C8 counterexample: the fixed-value stage run with a configuration whose
fixed values target `sequencing_sample_id` rewrites that field, so the claim
that every stage leaves `sequencing_sample_id` unchanged fails as stated
(it needs the configured mappings to avoid that target field). -/
theorem fixed_values_overwrite_sample_id :
    addFixedValues [("sequencing_sample_id", "OVERWRITTEN")]
        [[("sequencing_sample_id", "S1")]] =
      [[("sequencing_sample_id", "OVERWRITTEN")]] ∧
    getField [("sequencing_sample_id", "S1")] "sequencing_sample_id" ≠
      getField [("sequencing_sample_id", "OVERWRITTEN")] "sequencing_sample_id" := by
  decide

/-- A stage preserves the number of records and, per record, never removes a
field (the field set only grows). -/
def stageCountFields (step : RecordSet → Except PipelineError RecordSet) : Prop :=
  ∀ j out, step j = .ok out →
    out.length = j.length ∧
    ∀ (i : Nat) (h1 : i < j.length) (h2 : i < out.length),
      ∀ f v, getField (j.get ⟨i, h1⟩) f = some v →
        ∃ w, getField (out.get ⟨i, h2⟩) f = some w

/-- A stage leaves every record's `sequencing_sample_id` field unchanged. -/
def stageSidStable (step : RecordSet → Except PipelineError RecordSet) : Prop :=
  ∀ j out, step j = .ok out →
    ∀ (i : Nat) (h1 : i < j.length) (h2 : i < out.length),
      getField (out.get ⟨i, h2⟩) "sequencing_sample_id" =
        getField (j.get ⟨i, h1⟩) "sequencing_sample_id"

theorem mapME_countFields (f : Record → Except PipelineError Record)
    (hrow : ∀ r out, f r = .ok out →
      ∀ g v, getField r g = some v → ∃ w, getField out g = some w) :
    stageCountFields (mapME f) := by
  intro j out h
  refine ⟨mapME_ok_length f j out h, fun i h1 h2 g v hv => ?_⟩
  exact hrow _ _ (mapME_ok_get f j out h i h1 h2) g v hv

theorem map_countFields (g : Record → Record)
    (hrow : ∀ r f v, getField r f = some v → ∃ w, getField (g r) f = some w) :
    stageCountFields (fun j => .ok (j.map g)) := by
  intro j out h
  injection h with h2
  subst h2
  refine ⟨by simp, fun i h1 h2 f v hv => ?_⟩
  have hg : (j.map g).get ⟨i, h2⟩ = g (j.get ⟨i, h1⟩) := by simp
  rw [hg]
  exact hrow _ f v hv

theorem mapME_sidStable (f : Record → Except PipelineError Record)
    (hrow : ∀ r out, f r = .ok out →
      getField out "sequencing_sample_id" = getField r "sequencing_sample_id") :
    stageSidStable (mapME f) := by
  intro j out h i h1 h2
  exact hrow _ _ (mapME_ok_get f j out h i h1 h2)

theorem map_sidStable (g : Record → Record)
    (hrow : ∀ r, getField (g r) "sequencing_sample_id" =
      getField r "sequencing_sample_id") :
    stageSidStable (fun j => .ok (j.map g)) := by
  intro j out h i h1 h2
  injection h with h3
  subst h3
  have hg : (j.map g).get ⟨i, h2⟩ = g (j.get ⟨i, h1⟩) := by simp
  rw [hg]
  exact hrow _

/-- C8 (amended): unconditionally, every stage keeps exactly the same number
of records and each record's field set only grows (no field removed); and
provided no configured mapping (fixed values included) targets
`sequencing_sample_id`, every stage also leaves each record's
`sequencing_sample_id` unchanged. -/
theorem stages_preserve_structure (env : Env) :
    (stageCountFields (fun j => .ok (addFixedValues env.config.fixed_values j)) ∧
     stageCountFields (includeDataFromMappingStats env) ∧
     stageCountFields (includeSoftwareVersions env) ∧
     stageCountFields (includeVariantMetrics env) ∧
     stageCountFields (includePangolinData env) ∧
     stageCountFields (includeConsensusData env) ∧
     stageCountFields (fun j => .ok (includeLongTablePath env j))) ∧
    ("sequencing_sample_id" ∉ env.config.fixed_values.map Prod.fst →
     "sequencing_sample_id" ∉ env.config.mapping_stats.map Prod.fst →
     "sequencing_sample_id" ∉ env.config.mapping_version.map Prod.fst →
     "sequencing_sample_id" ∉ env.config.mapping_variant_metrics.map Prod.fst →
     "sequencing_sample_id" ∉ env.config.mapping_pangolin.map Prod.fst →
     "sequencing_sample_id" ∉ env.config.mapping_consensus.map Prod.fst →
     stageSidStable (fun j => .ok (addFixedValues env.config.fixed_values j)) ∧
     stageSidStable (includeDataFromMappingStats env) ∧
     stageSidStable (includeSoftwareVersions env) ∧
     stageSidStable (includeVariantMetrics env) ∧
     stageSidStable (includePangolinData env) ∧
     stageSidStable (includeConsensusData env) ∧
     stageSidStable (fun j => .ok (includeLongTablePath env j))) := by
  constructor
  · refine ⟨?_, ?_, ?_, ?_, ?_, ?_, ?_⟩
    · exact map_countFields _
        (fun r f v hv => writeAll_superset env.config.fixed_values _ r f v hv)
    · exact mapME_countFields _
        (fun r out h f v hv => projectRow_superset _ _ r out f v h hv)
    · intro j out h
      cases hv : env.versionsYaml with
      | none =>
        rw [includeSoftwareVersions_eq_noYaml env j hv] at h
        exact Except.noConfusion h
      | some versions =>
        rw [includeSoftwareVersions_eq_some env j versions hv] at h
        exact mapME_countFields _
          (fun r out h2 f v hv2 => versionRow_superset versions _ r out f v h2 hv2)
          j out h
    · exact mapME_countFields _
        (fun r out h f v hv => projectRow_superset _ _ r out f v h hv)
    · exact mapME_countFields _
        (fun r out h f v hv => pangolinRow_superset env r out f v h hv)
    · exact mapME_countFields _
        (fun r out h f v hv => consensusRow_superset env r out f v h hv)
    · exact map_countFields _
        (fun r f v hv => setField_superset r _ _ f v hv)
  · intro h1 h2 h3 h4 h5 h6
    refine ⟨?_, ?_, ?_, ?_, ?_, ?_, ?_⟩
    · exact map_sidStable _
        (fun r => getField_writeAll_notin env.config.fixed_values _ r _ h1)
    · exact mapME_sidStable _
        (fun r out h => projectRow_ok_notin _ _ r out _ h h2)
    · intro j out h
      cases hv : env.versionsYaml with
      | none =>
        rw [includeSoftwareVersions_eq_noYaml env j hv] at h
        exact Except.noConfusion h
      | some versions =>
        rw [includeSoftwareVersions_eq_some env j versions hv] at h
        exact mapME_sidStable _
          (fun r out hr => versionRow_ok_notin versions _ r out _ hr h3)
          j out h
    · exact mapME_sidStable _
        (fun r out h => projectRow_ok_notin _ _ r out _ h h4)
    · exact mapME_sidStable _
        (fun r out h => pangolinRow_ok_notin env r out _ h h5)
    · exact mapME_sidStable _
        (fun r out h => consensusRow_ok_notin env r out _ h h6 (by decide))
    · exact map_sidStable _
        (fun r => getField_setField_ne r _ _ _ (by decide))

/-- C8 witness: at the concrete environment, every stage keeps the record
count and field sets, and — its configuration mapping no stage onto
`sequencing_sample_id` — leaves the sample identity unchanged. -/
theorem stages_preserve_structure_witness :
    (stageCountFields (fun j => .ok (addFixedValues envOK.config.fixed_values j)) ∧
     stageCountFields (includeDataFromMappingStats envOK) ∧
     stageCountFields (includeSoftwareVersions envOK) ∧
     stageCountFields (includeVariantMetrics envOK) ∧
     stageCountFields (includePangolinData envOK) ∧
     stageCountFields (includeConsensusData envOK) ∧
     stageCountFields (fun j => .ok (includeLongTablePath envOK j))) ∧
    (stageSidStable (fun j => .ok (addFixedValues envOK.config.fixed_values j)) ∧
     stageSidStable (includeDataFromMappingStats envOK) ∧
     stageSidStable (includeSoftwareVersions envOK) ∧
     stageSidStable (includeVariantMetrics envOK) ∧
     stageSidStable (includePangolinData envOK) ∧
     stageSidStable (includeConsensusData envOK) ∧
     stageSidStable (fun j => .ok (includeLongTablePath envOK j))) :=
  ⟨(stages_preserve_structure envOK).1,
   (stages_preserve_structure envOK).2 (by decide) (by decide) (by decide)
     (by decide) (by decide) (by decide)⟩

/-- C2: in the mapping-stats and variant-metrics stages (both instances of
the same index-projection loop, sharing even the error message context), a
record whose sample id is absent from the artifact index, or whose configured
source column is absent from the sample's row, makes the stage return the
fatal exit carrying the missing key, and a run that wrote its output had both
stages succeed; when every lookup resolves, each configured target field of
each record receives the looked-up value. -/
theorem mapping_stage_missing_key_fatal :
    (∀ (env : Env) (j : RecordSet),
      includeDataFromMappingStats env j =
        enrichSet env.mappingStatsIndex env.config.mapping_stats j) ∧
    (∀ (env : Env) (j : RecordSet),
      includeVariantMetrics env j =
        enrichSet env.variantMetricsIndex env.config.mapping_variant_metrics j) ∧
    (∀ (env : Env) (out : RunOutput), createBioinfoFile env = .ok out →
      (∃ ja jb, includeDataFromMappingStats env ja = .ok jb) ∧
      (∃ jc jd, includeVariantMetrics env jc = .ok jd)) ∧
    (∀ (index : ArtifactIndex) (mapping : List (String × String)) (j : RecordSet),
      (∀ r, r ∈ j → ∃ sid, getField r "sequencing_sample_id" = some sid) →
      "sequencing_sample_id" ∉ mapping.map Prod.fst →
      (mapping.map Prod.fst).Nodup →
      ((∃ r, r ∈ j ∧ ∃ sid, getField r "sequencing_sample_id" = some sid ∧
          ∃ p, p ∈ mapping ∧ ¬ idxHas index sid p.2) →
        ∃ k, enrichSet index mapping j = .error (.fatalKey k "mapping stats") ∧
          ∃ r, r ∈ j ∧ ∃ sid, getField r "sequencing_sample_id" = some sid ∧
            ((k = sid ∧ lookupKV index sid = none) ∨
             (∃ row, lookupKV index sid = some row ∧ (∃ f2, (f2, k) ∈ mapping) ∧
               lookupKV row k = none))) ∧
      ((∀ r, r ∈ j → ∀ sid, getField r "sequencing_sample_id" = some sid →
          ∀ p, p ∈ mapping → idxHas index sid p.2) →
        ∃ out, enrichSet index mapping j = .ok out ∧ out.length = j.length ∧
          ∀ (i : Nat) (hi : i < j.length) (ho : i < out.length) (sid : String),
            getField (j.get ⟨i, hi⟩) "sequencing_sample_id" = some sid →
            ∀ p, p ∈ mapping → ∀ (row : Record) (v : String),
              lookupKV index sid = some row → lookupKV row p.2 = some v →
              getField (out.get ⟨i, ho⟩) p.1 = some v)) := by
  refine ⟨fun env j => rfl, fun env j => rfl, ?_, ?_⟩
  · intro env out h
    obtain ⟨j0, j2, j3, j4, _, _, _, hs2, _, hs4, _⟩ := createBioinfoFile_ok_chain env out h
    exact ⟨⟨_, j2, hs2⟩, ⟨j3, j4, hs4⟩⟩
  · intro index mapping j hall hni hnd
    constructor
    · intro hex
      have hallP : ∀ a, a ∈ j →
          (∃ b, projectRow (statResolve index) mapping a = .ok b) ∨
          (∃ e, projectRow (statResolve index) mapping a = .error e ∧
            (∃ k, e = .fatalKey k "mapping stats" ∧
              ∃ r, r ∈ j ∧ ∃ sid, getField r "sequencing_sample_id" = some sid ∧
                ((k = sid ∧ lookupKV index sid = none) ∨
                 (∃ row, lookupKV index sid = some row ∧ (∃ f2, (f2, k) ∈ mapping) ∧
                   lookupKV row k = none)))) := by
        intro a ha
        obtain ⟨sid, hsid⟩ := hall a ha
        cases hres : projectRow (statResolve index) mapping a with
        | ok b => exact Or.inl ⟨b, rfl⟩
        | error e =>
          obtain ⟨k, hk, hshape⟩ :=
            statRow_error_shape index mapping a sid e hsid hni hres
          exact Or.inr ⟨e, rfl, k, hk, a, ha, sid, hsid, hshape⟩
      have hex2 : ∃ a, a ∈ j ∧ ∀ b,
          projectRow (statResolve index) mapping a ≠ .ok b := by
        obtain ⟨r, hr, sid, hsid, p, hp, hnidx⟩ := hex
        refine ⟨r, hr, fun b hb => ?_⟩
        exact hnidx ((statRow_ok_iff index mapping r sid hsid hni).mp ⟨b, hb⟩ p hp)
      obtain ⟨e, he, k, hk, hsh⟩ :=
        mapME_error_shape (projectRow (statResolve index) mapping)
          (fun e => ∃ k, e = .fatalKey k "mapping stats" ∧
            ∃ r, r ∈ j ∧ ∃ sid, getField r "sequencing_sample_id" = some sid ∧
              ((k = sid ∧ lookupKV index sid = none) ∨
               (∃ row, lookupKV index sid = some row ∧ (∃ f2, (f2, k) ∈ mapping) ∧
                 lookupKV row k = none))) j hallP hex2
      rw [hk] at he
      exact ⟨k, he, hsh⟩
    · intro hall2
      have hok : ∀ a, a ∈ j → ∃ b, projectRow (statResolve index) mapping a = .ok b := by
        intro a ha
        obtain ⟨sid, hsid⟩ := hall a ha
        exact (statRow_ok_iff index mapping a sid hsid hni).mpr
          (fun p hp => hall2 a ha sid hsid p hp)
      obtain ⟨out, hout⟩ := mapME_ok_of_all _ j hok
      refine ⟨out, hout, mapME_ok_length _ j out hout, ?_⟩
      intro i hi ho sid hsid p hp row v hrow hv
      exact statRow_ok_written index mapping (j.get ⟨i, hi⟩) (out.get ⟨i, ho⟩) sid
        hsid hni hnd (mapME_ok_get _ j out hout i hi ho) p hp row v hrow hv

/-- C2 witness: with an empty mapping-stats index and one configured pair, the
loop over a record set containing sample `S1` exits fatally with an error
carrying the missing key. -/
theorem mapping_stage_missing_key_fatal_witness :
    ∃ k, enrichSet ([] : ArtifactIndex) [("depth_of_coverage_value", "DP")]
        [[("sequencing_sample_id", "S1")]] = .error (.fatalKey k "mapping stats") ∧
      ∃ r, r ∈ [[("sequencing_sample_id", "S1")]] ∧
        ∃ sid, getField r "sequencing_sample_id" = some sid ∧
          ((k = sid ∧ lookupKV ([] : ArtifactIndex) sid = none) ∨
           (∃ row, lookupKV ([] : ArtifactIndex) sid = some row ∧
             (∃ f2, (f2, k) ∈ [("depth_of_coverage_value", "DP")]) ∧
             lookupKV row k = none)) :=
  (mapping_stage_missing_key_fatal.2.2.2 [] [("depth_of_coverage_value", "DP")]
      [[("sequencing_sample_id", "S1")]]
      (fun r hr => by
        simp only [List.mem_singleton] at hr
        subst hr
        exact ⟨"S1", by decide⟩)
      (by decide) (by decide)).1
    ⟨[("sequencing_sample_id", "S1")], by decide, "S1", by decide,
      ("depth_of_coverage_value", "DP"), by decide,
      fun hhas => by
        obtain ⟨row, v, hrow, _⟩ := hhas
        simp [lookupKV] at hrow⟩

/-- A configuration whose stage mappings are all empty. -/
def cfgEmpty : Config where
  fixed_values := []
  mapping_stats := []
  mapping_version := []
  mapping_variant_metrics := []
  mapping_pangolin := []
  mapping_consensus := []

/-- An environment with an empty consensus mapping but a present consensus
file of length 5. -/
def envC5 : Env where
  jsonFile := "lab.json"
  inputFolder := "/in"
  outputFolder := "/out"
  config := cfgEmpty
  readJson := none
  mappingStatsIndex := []
  variantMetricsIndex := []
  versionsYaml := none
  readCsvComma := fun _ => none
  readFasta := fun _ => some { length := 5, description := "hCoV-19 consensus" }
  md5 := fun _ => "abc123"
  longTableMatches := []

/-- A record with a non-empty sample id and a parsable read length. -/
def rowC5 : Record := [("sequencing_sample_id", "S1"), ("read_length", "10")]

/-- The record produced by the consensus stage of `envC5` on `rowC5`. -/
def outC5 : Record :=
  [("sequencing_sample_id", "S1"), ("read_length", "10"),
   ("consensus_genome_length", "5"), ("consensus_sequence_name", "hCoV-19 consensus"),
   ("consensus_sequence_filepath", "/in"), ("consensus_sequence_filename", "S1.consensus.fa"),
   ("consensus_sequence_md5", "abc123"), ("number_of_base_pairs_sequenced", "100")]

/-- C5 counterexample: with an empty consensus field mapping the consensus
stage still writes `consensus_genome_length` (and five more hardcoded
fields), so the set of fields a stage writes is not determined by the
externally supplied mapping alone. -/
theorem consensus_hardcoded_fields_counterexample :
    envC5.config.mapping_consensus = [] ∧
    consensusRow envC5 rowC5 = .ok outC5 ∧
    getField rowC5 "consensus_genome_length" = none ∧
    getField outC5 "consensus_genome_length" = some "5" :=
  ⟨rfl, rfl, rfl, rfl⟩

theorem getField_consensusStamp_filename (env : Env) (fasta : Fasta)
    (fName fPath : String) (r : Record) :
    getField (consensusStamp env fasta fName fPath r) "consensus_sequence_filename" =
      some fName := by
  unfold consensusStamp
  rw [getField_setField_ne _ _ _ _ (by decide), getField_setField_same]

theorem consensusSuccess_writes_filename (env : Env) (fasta : Fasta)
    (fName fPath : String) (r out : Record)
    (h : consensusSuccess env fasta fName fPath r = .ok out) :
    getField out "consensus_sequence_filename" = some fName := by
  cases hrl : getField (consensusStamp env fasta fName fPath r) "read_length" with
  | none =>
    rw [consensusSuccess_eq_noRl env fasta fName fPath r hrl] at h
    exact Except.noConfusion h
  | some rl =>
    cases hn : pyInt rl with
    | none =>
      rw [consensusSuccess_eq_badInt env fasta fName fPath r rl hrl hn] at h
      exact Except.noConfusion h
    | some n =>
      cases hsid2 : getField (consensusStamp env fasta fName fPath r) "sequencing_sample_id" with
      | none =>
        rw [consensusSuccess_eq_noSid2 env fasta fName fPath r rl n hrl hn hsid2] at h
        exact Except.noConfusion h
      | some sid2 =>
        rw [consensusSuccess_eq_ok env fasta fName fPath r rl n sid2 hrl hn hsid2] at h
        by_cases hne : sid2 = ""
        · rw [if_neg (by simp [hne])] at h
          injection h with h2
          rw [← h2, getField_setField_ne _ _ _ _ (by decide)]
          exact getField_consensusStamp_filename env fasta fName fPath r
        · rw [if_pos hne] at h
          injection h with h2
          rw [← h2, getField_setField_ne _ _ _ _ (by decide)]
          exact getField_consensusStamp_filename env fasta fName fPath r

/-- C5 (amended): the fixed-value, mapping-stats, software-version,
variant-metrics and lineage stages write only fields named in their
externally supplied mapping; the consensus stage respects its mapping only on
the missing-file branch and on the success path also writes a fixed hardcoded
field set (witnessed here by `consensus_sequence_filename`, written whatever
the mapping); the long-table stage writes the hardcoded `long_table_path`. -/
theorem stage_written_fields_characterization (env : Env) :
    (∀ (r : Record) (f : String), f ∉ env.config.fixed_values.map Prod.fst →
      getField (writeAll (fun p => p.2) env.config.fixed_values r) f = getField r f) ∧
    (∀ (r out : Record) (f : String),
      projectRow (statResolve env.mappingStatsIndex) env.config.mapping_stats r = .ok out →
      f ∉ env.config.mapping_stats.map Prod.fst → getField out f = getField r f) ∧
    (∀ (versions : List (String × List (String × String))) (r out : Record) (f : String),
      versionRow versions env.config.mapping_version r = .ok out →
      f ∉ env.config.mapping_version.map Prod.fst → getField out f = getField r f) ∧
    (∀ (r out : Record) (f : String),
      projectRow (statResolve env.variantMetricsIndex) env.config.mapping_variant_metrics r = .ok out →
      f ∉ env.config.mapping_variant_metrics.map Prod.fst → getField out f = getField r f) ∧
    (∀ (r out : Record) (f : String), pangolinRow env r = .ok out →
      f ∉ env.config.mapping_pangolin.map Prod.fst → getField out f = getField r f) ∧
    (∀ (r out : Record) (f : String), consensusRow env r = .ok out →
      f ∉ env.config.mapping_consensus.map Prod.fst → f ∉ consensusHardcoded →
      getField out f = getField r f) ∧
    (∀ (r out : Record) (sid : String) (fasta : Fasta),
      getField r "sequencing_sample_id" = some sid →
      env.readFasta (osPathJoin env.inputFolder
        (normalizeSampleId sid ++ ".consensus.fa")) = some fasta →
      consensusRow env r = .ok out →
      getField out "consensus_sequence_filename" =
        some (normalizeSampleId sid ++ ".consensus.fa")) ∧
    (∀ (r : Record) (f : String), f ≠ "long_table_path" →
      getField (setField r "long_table_path" (longTableValue env)) f = getField r f) := by
  refine ⟨fun r f hf => getField_writeAll_notin _ _ r f hf,
    fun r out f h hf => projectRow_ok_notin _ _ r out f h hf,
    fun versions r out f h hf => versionRow_ok_notin versions _ r out f h hf,
    fun r out f h hf => projectRow_ok_notin _ _ r out f h hf,
    fun r out f h hf => pangolinRow_ok_notin env r out f h hf,
    fun r out f h hf1 hf2 => consensusRow_ok_notin env r out f h hf1 hf2,
    fun r out sid fasta hsid hread h => ?_,
    fun r f hf => getField_setField_ne r _ _ f hf⟩
  rw [consensusRow_eq_found env r sid fasta hsid hread] at h
  exact consensusSuccess_writes_filename env fasta _ _ r out h

/-- C5 witness: the fixed-value stage of the concrete configuration leaves a
field outside its mapping untouched. -/
theorem stage_written_fields_characterization_witness :
    getField (writeAll (fun p => p.2) envOK.config.fixed_values
        [("sequencing_sample_id", "S1")]) "depth_of_coverage_value" =
      getField [("sequencing_sample_id", "S1")] "depth_of_coverage_value" :=
  (stage_written_fields_characterization envOK).1 [("sequencing_sample_id", "S1")]
    "depth_of_coverage_value" (by decide)

end Relecov
